import Mathlib

/-!
Verification of the concord-demo contract-processing pipeline.

The Python sources (`post_processing.py`, `utils.py`, `app.py`) are shallowly
embedded below.  JSON values (the shape handled by `json.loads`) are modelled
by the inductive type `Json`; Python dictionaries become ordered association
lists (insertion order, no duplicate keys are ever produced by `json.loads`),
and Python exceptions (`KeyError`, `TypeError`) become an `Except PyExc`
result.  Numbers are modelled by `Int` for document payloads and by `Rat`
where the code divides (coordinate normalization); Python float rounding is
modelled as exact rational rounding half-to-even, which is `round`'s rule.
-/

/-- A JSON value as produced by `json.loads`: strings, integers, arrays and
objects (ordered key/value lists).  This is the value universe every embedded
function below operates on. -/
inductive Json where
  | str (s : String)
  | num (n : Int)
  | arr (items : List Json)
  | obj (entries : List (String × Json))

namespace Json

mutual

/-- Structural equality test for `Json`. -/
def jeqv : Json → Json → Bool
  | .str a, .str b => a == b
  | .num a, .num b => a == b
  | .arr a, .arr b => jeqvItems a b
  | .obj a, .obj b => jeqvPairs a b
  | _, _ => false

/-- Structural equality test for `Json` item lists. -/
def jeqvItems : List Json → List Json → Bool
  | [], [] => true
  | a :: la, b :: lb => jeqv a b && jeqvItems la lb
  | _, _ => false

/-- Structural equality test for object entry lists. -/
def jeqvPairs : List (String × Json) → List (String × Json) → Bool
  | [], [] => true
  | (ka, va) :: la, (kb, vb) :: lb =>
      ka == kb && jeqv va vb && jeqvPairs la lb
  | _, _ => false

end

mutual

/-- `jeqv` holds exactly at equal `Json` values. -/
theorem jeqv_eq_true_iff : ∀ a b : Json, jeqv a b = true ↔ a = b
  | .str a, .str b => by simp [jeqv]
  | .num a, .num b => by simp [jeqv]
  | .arr la, .arr lb => by simp [jeqv, jeqvItems_eq_true_iff la lb]
  | .obj la, .obj lb => by simp [jeqv, jeqvPairs_eq_true_iff la lb]
  | .str _, .num _ | .str _, .arr _ | .str _, .obj _
  | .num _, .str _ | .num _, .arr _ | .num _, .obj _
  | .arr _, .str _ | .arr _, .num _ | .arr _, .obj _
  | .obj _, .str _ | .obj _, .num _ | .obj _, .arr _ => by simp [jeqv]

/-- `jeqvItems` holds exactly at equal `Json` item lists. -/
theorem jeqvItems_eq_true_iff :
    ∀ la lb : List Json, jeqvItems la lb = true ↔ la = lb
  | [], [] => by simp [jeqvItems]
  | a :: la, b :: lb => by
      simp [jeqvItems, jeqv_eq_true_iff a b, jeqvItems_eq_true_iff la lb]
  | [], _ :: _ => by simp [jeqvItems]
  | _ :: _, [] => by simp [jeqvItems]

/-- `jeqvPairs` holds exactly at equal object entry lists. -/
theorem jeqvPairs_eq_true_iff :
    ∀ la lb : List (String × Json), jeqvPairs la lb = true ↔ la = lb
  | [], [] => by simp [jeqvPairs]
  | (ka, va) :: la, (kb, vb) :: lb => by
      simp [jeqvPairs, jeqv_eq_true_iff va vb, jeqvPairs_eq_true_iff la lb,
        and_assoc]
  | [], _ :: _ => by simp [jeqvPairs]
  | _ :: _, [] => by simp [jeqvPairs]

end

instance : DecidableEq Json := fun a b =>
  decidable_of_iff (jeqv a b = true) (jeqv_eq_true_iff a b)

end Json

/-- First value bound to key `k` in an association list (Python dictionaries
hold each key once, and `d[k]` reads that binding). -/
def jLookup (kvs : List (String × Json)) (k : String) : Option Json :=
  match kvs with
  | [] => none
  | (k₀, v₀) :: rest => if k₀ = k then some v₀ else jLookup rest k

/-- Key-presence test on an association list (`k in d` for a Python dict). -/
def jHasKey (kvs : List (String × Json)) (k : String) : Bool :=
  match kvs with
  | [] => false
  | (k₀, _) :: rest => k₀ == k || jHasKey rest k

/-- Python dictionary assignment `d[k] = v`: replace the first binding of `k`
if one exists, otherwise append the new binding (insertion order). -/
def jSet (kvs : List (String × Json)) (k : String) (v : Json) :
    List (String × Json) :=
  match kvs with
  | [] => [(k, v)]
  | (k₀, v₀) :: rest =>
      if k₀ = k then (k₀, v) :: rest else (k₀, v₀) :: jSet rest k v

/-- Python exceptions raised by the embedded code. -/
inductive PyExc where
  | keyError (k : String)
  | typeError
deriving DecidableEq

instance {ε α : Type} [DecidableEq ε] [DecidableEq α] :
    DecidableEq (Except ε α) := fun a b =>
  match a, b with
  | .ok x, .ok y =>
      if h : x = y then isTrue (by rw [h])
      else isFalse (fun hh => h (Except.ok.inj hh))
  | .error x, .error y =>
      if h : x = y then isTrue (by rw [h])
      else isFalse (fun hh => h (Except.error.inj hh))
  | .ok _, .error _ => isFalse (fun hh => Except.noConfusion hh)
  | .error _, .ok _ => isFalse (fun hh => Except.noConfusion hh)

/-- Whether the first character list starts the second one. -/
def leadsWith : List Char → List Char → Bool
  | [], _ => true
  | _ :: _, [] => false
  | c :: cs, d :: ds => c == d && leadsWith cs ds

/-- Whether the first character list occurs contiguously inside the second. -/
def occursIn (needle hay : List Char) : Bool :=
  match hay with
  | [] => needle.isEmpty
  | _ :: t => leadsWith needle hay || occursIn needle t

/-- Substring test, used by Python's `needle in haystack` on strings. -/
def strContains (haystack needle : String) : Bool :=
  occursIn needle.data haystack.data

/-- Python's `k in j` where `k` is a string: key test on a dict, substring
test on a string, membership test on a list, `TypeError` on a number. -/
def pyIn (k : String) (j : Json) : Except PyExc Bool :=
  match j with
  | .obj kvs => .ok (jHasKey kvs k)
  | .str s => .ok (strContains s k)
  | .arr xs => .ok (xs.contains (Json.str k))
  | .num _ => .error .typeError

/-- Python's `j[k]` where `k` is a string: dict lookup (`KeyError` when the
key is absent), `TypeError` on any non-dict value. -/
def pyGetItem (j : Json) (k : String) : Except PyExc Json :=
  match j with
  | .obj kvs =>
      match jLookup kvs k with
      | some v => .ok v
      | none => .error (.keyError k)
  | _ => .error .typeError

/-- Python's `m.get(key, key)` for a string-keyed dict `m`: a string key is
looked up with itself as default, a number is simply not found (again the
default), and unhashable keys (lists, dicts) raise `TypeError`. -/
def pyMapGetD (m : List (String × String)) (key : Json) : Except PyExc Json :=
  match key with
  | .str s =>
      match m.lookup s with
      | some w => .ok (.str w)
      | none => .ok (.str s)
  | .num n => .ok (.num n)
  | .arr _ => .error .typeError
  | .obj _ => .error .typeError

/-- The `choice_of_law_mapping` table of `post_processing.py`. -/
def choice_of_law_mapping : List (String × String) :=
  [("California", "CA - California"),
   ("Florida", "FL - Florida"),
   ("New York", "NY - New York"),
   ("Tennessee", "TN - Tennessee"),
   ("United States", "USA - United States"),
   ("Australia", "AUS - Australia"),
   ("Canada", "CAN - Canada"),
   ("Germany", "DEU - Germany"),
   ("Denmark", "DNK - Denmark"),
   ("England & Wales", "EAW - England & Wales"),
   ("France", "FRA - France"),
   ("United Kingdom of Great Britain and Northern Ireland",
    "GBR - United Kingdom of Great Britain and Northern Ireland"),
   ("Ireland", "IRL - Ireland"),
   ("Japan", "JPN - Japan"),
   ("Korea", "KOR - Korea"),
   ("Mexico", "MEX - Mexico"),
   ("New Zealand", "NZL - New Zealand"),
   ("Puerto Rico", "PRI - Puerto Rico")]

/-- The `currency_mapping` table of `post_processing.py`. -/
def currency_mapping : List (String × String) :=
  [("USD", "USD - U.S. Dollar"),
   ("AUD", "AUD - Australian Dollar"),
   ("EUR", "EUR - Euro"),
   ("GBP", "GBP - British Pound"),
   ("MXN", "MXN - Mexican Peso"),
   ("NZD", "NZD - New Zealand Dollar")]

/-- The `pro_accepted_list` of `post_processing.py` (24 entries). -/
def pro_accepted_list : List String :=
  ["ACEMLA", "AllTrack", "MCOS", "AMRA", "APRA", "ASCAP", "BMI", "CMRRA",
   "GMR", "IMRO", "JASRAC", "KODA", "MCPSI", "PPCA", "PPI", "PPL",
   "Pro Music Rights", "PRS", "Re:Sound", "SACD", "SACEM", "SESAC",
   "SOCAN", "SoundExchange"]

/-- One guarded substitution step of `update_extracted_value`
(`post_processing.py` lines 60-69): if `key` is present in the document and
its value responds true to `"Extracted Value" in ...`, replace the extracted
value by `mapping.get(original, original)`. -/
def stepMapping (key : String) (m : List (String × String)) (j : Json) :
    Except PyExc Json :=
  match pyIn key j with
  | .error e => .error e
  | .ok false => .ok j
  | .ok true =>
    match pyGetItem j key with
    | .error e => .error e
    | .ok fieldVal =>
      match pyIn "Extracted Value" fieldVal with
      | .error e => .error e
      | .ok false => .ok j
      | .ok true =>
        match pyGetItem fieldVal "Extracted Value" with
        | .error e => .error e
        | .ok original =>
          match pyMapGetD m original with
          | .error e => .error e
          | .ok mapped =>
            match j, fieldVal with
            | .obj kvs, .obj fkvs =>
                .ok (.obj (jSet kvs key
                      (.obj (jSet fkvs "Extracted Value" mapped))))
            | _, _ => .error .typeError

/-- The PRO coercion step of `update_extracted_value` (lines 72-74): a value
outside `pro_accepted_list` is replaced by `"Other"`.  Membership in the
Python list compares with `==`, so only the accepted strings stay. -/
def stepPro (j : Json) : Except PyExc Json :=
  match pyIn "Performing Rights Organization" j with
  | .error e => .error e
  | .ok false => .ok j
  | .ok true =>
    match pyGetItem j "Performing Rights Organization" with
    | .error e => .error e
    | .ok fieldVal =>
      match pyIn "Extracted Value" fieldVal with
      | .error e => .error e
      | .ok false => .ok j
      | .ok true =>
        match pyGetItem fieldVal "Extracted Value" with
        | .error e => .error e
        | .ok original =>
          let coerced :=
            match original with
            | .str s => if pro_accepted_list.contains s then Json.str s
                        else Json.str "Other"
            | _ => Json.str "Other"
          match j, fieldVal with
          | .obj kvs, .obj fkvs =>
              .ok (.obj (jSet kvs "Performing Rights Organization"
                    (.obj (jSet fkvs "Extracted Value" coerced))))
          | _, _ => .error .typeError

/-- The unguarded tail of `update_extracted_value` (lines 76-82): read
`json_data["Performing Rights Organization"]["Extracted Value"]` (raising
`KeyError` when either key is missing), and when it equals `"Other"`, bind
the whole PRO field object to the new top-level key
`"Other Performing Rights Organization"`. -/
def finalPro (j : Json) : Except PyExc Json :=
  match pyGetItem j "Performing Rights Organization" with
  | .error e => .error e
  | .ok fieldVal =>
    match pyGetItem fieldVal "Extracted Value" with
    | .error e => .error e
    | .ok ev =>
      if ev = Json.str "Other" then
        match j with
        | .obj kvs =>
            .ok (.obj (jSet kvs "Other Performing Rights Organization"
                  fieldVal))
        | _ => .error .typeError
      else
        .ok j

/-- `update_extracted_value` from `post_processing.py`: the choice-of-law and
currency substitutions, the PRO coercion, and the unguarded
`Other Performing Rights Organization` assignment, in source order.  A raised
Python exception is the `Except.error` case. -/
def update_extracted_value (j : Json) : Except PyExc Json :=
  match stepMapping "Choice of Law" choice_of_law_mapping j with
  | .error e => .error e
  | .ok j₁ =>
    match stepMapping "Currency" currency_mapping j₁ with
    | .error e => .error e
    | .ok j₂ =>
      match stepPro j₂ with
      | .error e => .error e
      | .ok j₃ => finalPro j₃

/-- `source[key]` inside `populate_template`, guarded there by `key in source`
(so the default is never observed). -/
def jGetD (src : Json) (k : String) : Json :=
  match src with
  | .obj kvs => (jLookup kvs k).getD (.str "")
  | _ => .str ""

/-- `key in source` as used by `populate_template`; the pipeline always passes
an object (a parsed JSON document) as the source. -/
def srcHasKey (src : Json) (k : String) : Bool :=
  match src with
  | .obj kvs => jHasKey kvs k
  | _ => false

mutual

/-- `populate_template` from `post_processing.py`: walk the template; at an
entry whose value is the empty string whose key exists in the source, take
`deepcopy(source[key])` (a deep copy is the value itself under value
semantics); otherwise recurse; non-dict template values are returned
unchanged. -/
def populate_template : Json → Json → Json
  | .obj kvs, source => .obj (populateEntries kvs source)
  | t, _ => t

/-- The per-entry loop of `populate_template`. -/
def populateEntries : List (String × Json) → Json → List (String × Json)
  | [], _ => []
  | (k, v) :: rest, source =>
      (k, if v = Json.str "" && srcHasKey source k then jGetD source k
          else populate_template v source) :: populateEntries rest source

end

/-- The `General Information` table of the static template, named separately
for the proofs about its `"No"`-defaulted leaf. -/
def concordGeneralInformation : List (String × Json) :=
  [("Effective Date", .str ""),
   ("Execution Date", .str ""),
   ("Territory", .str ""),
   ("Other Territory", .str ""),
   ("Excluded Territories", .str ""),
   ("Term Definition", .str ""),
   ("Number of Contract Periods", .str ""),
   ("Other number of Contract Periods", .str ""),
   ("Are there Options?", .str ""),
   ("Length of Each Contract Period", .str ""),
   ("Minimum Delivery Commitment?", .str ""),
   ("Minimum Delivery Commitment Amount", .str ""),
   ("Minimum Delivery Release Commitment?", .str ""),
   ("Min Delivery Release Commitment Amount", .str ""),
   ("Catalog (Full / Partial)", .str ""),
   ("All Songs Written During Term", .str ""),
   ("All Songs Acquired during Term", .str ""),
   ("All Songs Prior to Term", .str ""),
   ("Only Songs on Artist\x27s Album", .str ""),
   ("[Prior] Pass-Through Income Included in Concord", .str "No"),
   ("Rights Granted: Assignment Copyrights", .str ""),
   ("Rights Granted: General", .str ""),
   ("Rights Granted: Master Representation", .str ""),
   ("Rights Granted: Sync Camp", .str ""),
   ("Rights Granted: Demos", .str ""),
   ("Rights Excluded", .str ""),
   ("Right of First Negotiation / Match Right", .str ""),
   ("Choice of Law", .str ""),
   ("Choice of Law - Other", .str "")]

/-- The entry list of the static `concord_template` of `post_processing.py`
(lines 364-466). -/
def concord_entries : List (String × Json) :=
  [("Account", .obj
    [("Account Name", .str ""),
     ("Type", .str ""),
     ("Description", .str ""),
     ("Billing Street", .str ""),
     ("Billing City", .str ""),
     ("Billing Zip/Postal Code", .str ""),
     ("Billing State/Province", .str ""),
     ("Billing Country", .str "")]),
   ("Contacts", .obj
    [("First Name", .str ""),
     ("Last Name", .str "")]),
   ("Details", .obj
    [("Concord Party", .str ""),
     ("Agreement Name", .str ""),
     ("Currency", .str ""),
     ("Commitment End Date", .str ""),
     ("Agreement Type", .str ""),
     ("Assignability of Contract", .str ""),
     ("Assignability of Contract Details", .str ""),
     ("Change of Control", .str ""),
     ("Change of Control Details", .str ""),
     ("Key Person Provision", .str ""),
     ("Key Person Provision Details", .str "")]),
   ("Documents", .obj
    [("Schedule A Received", .str "")]),
   ("General Information", .obj concordGeneralInformation),
   ("Licensing Approvals", .obj
    [("Licensing Approval Notes", .str ""),
     ("Licensing: Any ad for personal hygiene, firearms or tobacco products", .str ""),
     ("Licensing: Any political or religious use", .str ""),
     ("Licensing: Samples and interpolations", .str ""),
     ("Licensing: Fundamental adaptations / translations / etc. to music, lyrics, title, or harmonic structure", .str ""),
     ("Licensing: Issue blanket licenses including the Comps", .str ""),
     ("Licensing: Licence the Compositions for period with extends beyond the Rights Period", .str ""),
     ("Name & Likeness Approval Notes", .str ""),
     ("Name & Likeness Approvals", .str ""),
     ("Sync Master Rep Approval Notes", .str ""),
     ("Synchronization: Films, Television Programmes, Advertisements, Computer Games, Interactive Devices, Videos", .str ""),
     ("Miscellaneous Licensing Notes", .str ""),
     ("Print: Print, publish and vend, and license the same", .str ""),
     ("Mechanical: Issue \"first use\" mechanical licenses", .str ""),
     ("Mechanical: Issue mechanical reproduction licenses at less than full statutory rate for the US", .str ""),
     ("Performance: Grand rights licenses and right to dramatize", .str ""),
     ("Terms of Approval for Licensing", .str "")]),
   ("R & A", .obj
    [("Royalty Basis", .str ""),
     ("Definition of Royalty Basis", .str ""),
     ("Definition of Gross Income", .str ""),
     ("At Source", .str ""),
     ("Frequency of Accounting / Statements", .str ""),
     ("Payments/Statements Due within", .str ""),
     ("Agreement Royalties", .str ""),
     ("General Master Rep Royalty", .str ""),
     ("Camp Master Rep Royalty", .str ""),
     ("Royalty Escalation", .str ""),
     ("Retroactive Collection", .str "")]),
   ("Registration Information", .obj
    [("Writer(s) CAE/IPI Name", .str ""),
     ("Writer(s) CAE/IPI Number", .str ""),
     ("Publishing Designee(s) IPI Number", .str ""),
     ("Publishing Designee(s) IPI Name", .str ""),
     ("Performing Rights Organization", .str ""),
     ("Other Performing Rights Organization", .str "")])]

/-- The static `concord_template` of `post_processing.py` (lines 364-466). -/
def concord_template : Json := .obj concord_entries

mutual

/-- A minimal `json.dumps` for the branch of `flatten_extracted_data` that
serializes a nested object without an `Extracted Value` key.  It follows the
default Python separators; no claim below evaluates this branch. -/
def jsonDumps : Json → String
  | .str s => "\"" ++ s ++ "\""
  | .num n => toString n
  | .arr xs => "[" ++ String.intercalate ", " (jsonDumpsList xs) ++ "]"
  | .obj kvs => "\x7b" ++ String.intercalate ", " (jsonDumpsEntries kvs) ++ "\x7d"

/-- Serialization of array items for `jsonDumps`. -/
def jsonDumpsList : List Json → List String
  | [] => []
  | x :: xs => jsonDumps x :: jsonDumpsList xs

/-- Serialization of object entries for `jsonDumps`. -/
def jsonDumpsEntries : List (String × Json) → List String
  | [] => []
  | (k, v) :: rest => ("\"" ++ k ++ "\": " ++ jsonDumps v) :: jsonDumpsEntries rest

end

/-- The multi-select field list of `flatten_extracted_data`. -/
def multi_select_fields : List String :=
  ["Territory", "Other Territory", "Excluded Territories"]

/-- `flatten_extracted_data` from `post_processing.py`: per field, unwrap an
`Extracted Value`; multi-select fields wrap a non-empty, non-`"N/A"` string
into a one-element list, keep lists, and drop everything else; other fields
pass the extracted value through; a dict without `Extracted Value` becomes a
JSON string; primitives pass through. -/
def flatten_extracted_data (entries : List (String × Json)) :
    List (String × Json) :=
  match entries with
  | [] => []
  | (field_name, field_data) :: rest =>
      let tail := flatten_extracted_data rest
      match field_data with
      | .obj fkvs =>
          match jLookup fkvs "Extracted Value" with
          | some extracted_value =>
              if multi_select_fields.contains field_name then
                match extracted_value with
                | .str s =>
                    if s ≠ "" && s ≠ "N/A" then
                      (field_name, .arr [.str s]) :: tail
                    else tail
                | .arr xs => (field_name, .arr xs) :: tail
                | _ => tail
              else
                (field_name, extracted_value) :: tail
          | none => (field_name, .str (jsonDumps (.obj fkvs))) :: tail
      | _ => (field_name, field_data) :: tail

/-- Two-level lookup into a templated document: table `t`, then field `k`. -/
def jLookup2 (j : Json) (t k : String) : Option Json :=
  match j with
  | .obj kvs =>
      match jLookup kvs t with
      | some (.obj gk) => jLookup gk k
      | _ => none
  | _ => none

/-- Python's regex `\s` over the inputs at hand (ASCII whitespace). -/
def pyWS (c : Char) : Bool :=
  c = ' ' || c = '\t' || c = '\n' || c = '\r' ||
  c = Char.ofNat 11 || c = Char.ofNat 12

/-- The character class `[\d\.\,\s\-eE]` of the `compact_coordinates`
pattern: digits, dot, comma, whitespace, minus, `e`, `E`. -/
def ccClass (c : Char) : Bool :=
  c.isDigit || c = '.' || c = ',' || pyWS c || c = '-' || c = 'e' || c = 'E'

/-- The second and third quantifiers of the pattern at a fixed start of the
lazy group: with `p` the text after `\[\s+`, try group lengths `g`,
`g + 1, ...`; the final fuel argument is the number of candidate lengths
still available (the lazy group grows only through class characters, so it
starts as the class-run length of `p`).  Each candidate must be followed by
`\s+\]`.  Returns the group text and the remainder after `]`. -/
def ccTryGroup (p : List Char) (g : Nat) :
    Nat → Option (List Char × List Char)
  | 0 => none
  | fuel + 1 =>
      let q := p.drop g
      let b := (q.takeWhile pyWS).length
      if b ≥ 1 && (q.drop b).head? = some ']' then
        some (p.take g, (q.drop b).tail)
      else
        ccTryGroup p (g + 1) fuel

/-- The first (greedy) `\s+` of the pattern: try the whitespace-run lengths
`a, a - 1, ..., 1` after the opening bracket (text `t`); for each, run the
lazy group search from length 1. -/
def ccTryWS (t : List Char) : Nat → Option (List Char × List Char)
  | 0 => none
  | a + 1 =>
      let p := t.drop (a + 1)
      match ccTryGroup p 1 ((p.takeWhile ccClass).length) with
      | some r => some r
      | none => ccTryWS t a

/-- Whether the pattern `\[\s+([\d\.\,\s\-eE]+?)\s+\]` matches at the head of
the text, with Python's backtracking order (greedy outer `\s+`, lazy group,
greedy inner `\s+`); on success, the captured group and the text after the
closing bracket. -/
def ccMatchHead : List Char → Option (List Char × List Char)
  | [] => none
  | c :: t =>
      if c = '[' then ccTryWS t ((t.takeWhile pyWS).length) else none

/-- Python's `str.split()`: split on whitespace runs, dropping empty pieces;
`acc` holds the (reversed) characters of the token being scanned. -/
def pySplitAux : List Char → List Char → List (List Char)
  | [], acc => if acc.isEmpty then [] else [acc.reverse]
  | c :: t, acc =>
      if pyWS c then
        if acc.isEmpty then pySplitAux t [] else acc.reverse :: pySplitAux t []
      else
        pySplitAux t (c :: acc)

/-- Python's `str.split()` on a character list. -/
def pySplit (cs : List Char) : List (List Char) := pySplitAux cs []

/-- The replacement `'[' + ' '.join(m.group(1).split()) + ']'`. -/
def ccReplacement (group : List Char) : List Char :=
  '[' :: (List.intercalate [' '] (pySplit group)) ++ [']']

/-- The scan of `re.sub`: find the leftmost match, emit its replacement,
continue after the match; characters not starting a match are copied.  The
fuel argument (instantiated with the text length, an upper bound on the
number of steps, each of which consumes at least one character) makes the
recursion structural. -/
def ccSub : Nat → List Char → List Char
  | 0, cs => cs
  | _ + 1, [] => []
  | fuel + 1, c :: t =>
      match ccMatchHead (c :: t) with
      | some (group, rest) => ccReplacement group ++ ccSub fuel rest
      | none => c :: ccSub fuel t

/-- `compact_coordinates` from `utils.py`: the global substitution of
`re.sub(r'\[\s+([\d\.\,\s\-eE]+?)\s+\]', lambda m: '[' + ' '.join(m.group(1).split()) + ']', json_data)`. -/
def compact_coordinates (json_data : String) : String :=
  String.mk (ccSub json_data.data.length json_data.data)

/-- Python truthiness of an optional string (environment variables, ids):
`None` and the empty string are falsy. -/
def optStrTruthy : Option String → Bool
  | some s => s ≠ ""
  | none => false

/-- Python truthiness of a JSON value. -/
def jTruthy : Json → Bool
  | .str s => s ≠ ""
  | .num n => n ≠ 0
  | .arr xs => !xs.isEmpty
  | .obj kvs => !kvs.isEmpty

/-- Python truthiness of an optional JSON value (`None` is falsy). -/
def optJTruthy : Option Json → Bool
  | some v => jTruthy v
  | none => false

/-- How an f-string renders an optional string (`None` prints as `None`). -/
def pyFmtOptStr : Option String → String
  | some s => s
  | none => "None"

/-- The textual message `str(e)` of an embedded Python exception.  Python
renders `KeyError(k)` as the quoted key; the varying prose of `TypeError`
messages is not modelled (no claim inspects it). -/
def pyExcMessage : PyExc → String
  | .keyError k => "\x27" ++ k ++ "\x27"
  | .typeError => "TypeError"

/-- A record-creation request sent to the CRM: target table and payload. -/
structure AirtableCall where
  table : String
  fields : List (String × Json)
deriving DecidableEq

/-- `update_amendment_changes_table` from `post_processing.py` (the single
copy of the function, invoked by `app.py`): after the required-parameter
check it issues exactly one `table.create` call, described by the returned
`AirtableCall` (the CRM-assigned id of the created record is external and
not part of this function's logic).  `table_name` is the caller's value for
the parameter whose source default is `"Amendment Changes"`. -/
def update_amendment_changes_table
    (frontend_url : Option String) (contract_id : String)
    (agreement_name : Option Json)
    (airtable_api_key airtable_base_id : Option String)
    (table_name : String) : Option AirtableCall :=
  if optStrTruthy airtable_api_key && optStrTruthy airtable_base_id &&
      contract_id ≠ "" then
    some { table := table_name,
           fields :=
             [("Link", .str (pyFmtOptStr frontend_url ++ "/" ++ contract_id)),
              ("Amendment Changes", .str "")] ++
             (match agreement_name with
              | some a => if jTruthy a then [("Contract", a)] else []
              | none => []) }
  else none

/-- `upload_to_s3` from `app.py`: no client means no upload; otherwise, on a
successful transfer (`uploadOk`, an external outcome), the deterministic
public URL is returned, and a `ClientError` yields `None`. -/
def upload_to_s3 (s3_client : Bool) (bucket region object_name : String)
    (uploadOk : Bool) : Option String :=
  if !s3_client then none
  else if uploadOk then
    some ("https://" ++ bucket ++ ".s3." ++ region ++ ".amazonaws.com/" ++
          object_name)
  else none

/-- The document `save_to_mongodb` (`app.py`) inserts into the collection. -/
structure MongoDoc where
  contract_id : String
  file_name : String
  s3_link : String
  record_id : List (String × String)
  actual_json : Json
  amendment_changes_record_id : Option String
  created_at : Int
deriving DecidableEq

/-- The module-global `mongo_collection` of `app.py` after startup.  Line
102 initializes it to the raw `COLLECTION_NAME` value: when `DATABASE_URI`,
`DATABASE_NAME` and `COLLECTION_NAME` are all truthy the startup block then
replaces it by the collection handle (`connected`) on a successful liveness
probe, or by `None` (`noneVal`) on a failed one; when the three variables
are not all truthy the block is skipped and the raw value survives — the
env string (`leftoverStr`, even the empty string) if `COLLECTION_NAME` was
set, `None` if it was not. -/
inductive MongoState where
  | connected
  | leftoverStr (s : String)
  | noneVal
deriving DecidableEq

/-- The gate test `mongo_collection is not None` of `app.py` (lines 181 and
502): true for the collection handle and for a leftover string alike. -/
def mongoIsNotNone : MongoState → Bool
  | .noneVal => false
  | _ => true

/-- `save_to_mongodb` from `app.py`: `None` means an early return; with the
collection handle one document is inserted (`insert_result` is the external
outcome: the new id, or `None` when the insert raised); with a leftover
`COLLECTION_NAME` string the early return is skipped but
`mongo_collection.insert_one` raises `AttributeError` inside the `try`
(a string has no such attribute), which is caught and reported as `None` —
no document reaches any database.  Returns the reported id and the
document the collection received, if any. -/
def save_to_mongodb (mongo_collection : MongoState)
    (contract_id file_name s3_link : String)
    (record_id : List (String × String)) (actual_json : Option Json)
    (amendment_changes_record_id : Option String) (now : Int)
    (insert_result : Option String) : Option String × Option MongoDoc :=
  match mongo_collection with
  | .noneVal => (none, none)
  | .leftoverStr _ => (none, none)
  | .connected =>
    (insert_result,
     some { contract_id := contract_id, file_name := file_name,
            s3_link := s3_link, record_id := record_id,
            actual_json :=
              (match actual_json with
               | some j => if jTruthy j then j else .obj []
               | none => .obj []),
            amendment_changes_record_id := amendment_changes_record_id,
            created_at := now })

/-- Process-wide configuration of `app.py`: what startup left in the module
globals.  `s3_client` is true exactly when the AWS keys and the bucket name
were all present; `mongo_collection` is the three-valued state the startup
block at lines 100-118 leaves behind (see `MongoState`). -/
structure AppConfig where
  airtable_api_key : Option String
  airtable_base_id : Option String
  s3_client : Bool
  s3_bucket : Option String
  aws_region : String
  mongo_collection : MongoState
  frontend_url : Option String

/-- Outcomes of the external calls a `process_single_pdf` run may make, in
the order the code would issue them: model+parse, CRM upload, object-storage
transfer, the fresh UUID, the utilities-record create, the database insert,
and the insertion timestamp. -/
structure ExtOutcomes where
  parsed : Except PyExc Json
  airtable_result : Option (List (String × String) × Option Json)
  s3_upload_ok : Bool
  uuid : String
  amendment_create_id : Option String
  mongo_insert_id : Option String
  now : Int

/-- The per-file result record built by `process_single_pdf` (`app.py`); the
wall-clock timing fields are omitted. -/
structure PipeResult where
  filename : String
  status : String
  output_path : Option String
  s3_link : Option String
  contract_id : Option String
  mongodb_id : Option String
  airtable_record_id : Option (List (String × String))
  amendment_changes_record_id : Option String
  error : Option String
  actual_json : Option Json

/-- `os.path.join` for the one call site (`output_dir`, `filename + ".json"`). -/
def osPathJoin (a b : String) : String :=
  if a = "" then b
  else if a.data.getLast? = some '/' then a ++ b else a ++ "/" ++ b

/-- `process_single_pdf` from `app.py`: the per-file pipeline from the parsed
model response onward (OCR, the model call and `json.loads` are folded into
`ext.parsed`; an exception there or in `update_extracted_value` is caught by
the top-level handler, giving status `failed`).  Besides the result record
it returns the CRM utilities-record creations and document-database inserts
the run issued. -/
def process_single_pdf (cfg : AppConfig) (filename output_dir : String)
    (ext : ExtOutcomes) : PipeResult × List AirtableCall × List MongoDoc :=
  let base : PipeResult :=
    { filename := filename, status := "processing", output_path := none,
      s3_link := none, contract_id := none, mongodb_id := none,
      airtable_record_id := none, amendment_changes_record_id := none,
      error := none, actual_json := none }
  match ext.parsed with
  | .error e => ({ base with status := "failed", error := some (pyExcMessage e) }, [], [])
  | .ok response =>
    match update_extracted_value response with
    | .error e =>
        ({ base with status := "failed", error := some (pyExcMessage e) }, [], [])
    | .ok normalized =>
      let templated := populate_template concord_template normalized
      let path := osPathJoin output_dir (filename ++ ".json")
      let r1 := { base with output_path := some path,
                            actual_json := some templated,
                            status := "success" }
      let airtableOn :=
        optStrTruthy cfg.airtable_api_key && optStrTruthy cfg.airtable_base_id
      let airtable_record : Option (List (String × String)) :=
        if airtableOn then
          match ext.airtable_result with
          | some (rid, _) => some rid
          | none => none
        else none
      let agreement_name : Option Json :=
        if airtableOn then
          match ext.airtable_result with
          | some (_, an) => an
          | none => none
        else none
      let r2 := if airtableOn then { r1 with airtable_record_id := airtable_record }
                else r1
      let s3On := cfg.s3_client && optStrTruthy cfg.s3_bucket
      let s3_url : Option String :=
        if s3On then
          upload_to_s3 cfg.s3_client (cfg.s3_bucket.getD "") cfg.aws_region
            ("contracts/" ++ filename ++ ".pdf") ext.s3_upload_ok
        else none
      let r3 := if s3On then { r2 with s3_link := s3_url } else r2
      if mongoIsNotNone cfg.mongo_collection && optStrTruthy s3_url then
        let contract_id := ext.uuid
        let amendCall : Option AirtableCall :=
          if airtableOn then
            update_amendment_changes_table cfg.frontend_url contract_id
              agreement_name cfg.airtable_api_key cfg.airtable_base_id
              "Amendment Changes"
          else none
        let amendId : Option String :=
          if airtableOn then
            match amendCall with
            | some _ => ext.amendment_create_id
            | none => none
          else none
        let r4 := if airtableOn then
                    { r3 with amendment_changes_record_id := amendId }
                  else r3
        let inserted := save_to_mongodb cfg.mongo_collection contract_id
          filename (s3_url.getD "") (airtable_record.getD [])
          (some templated) amendId ext.now ext.mongo_insert_id
        ({ r4 with contract_id := some contract_id, mongodb_id := inserted.1 },
         amendCall.toList, inserted.2.toList)
      else (r3, [], [])

/-- Round-half-to-even of a rational to an integer (the rule of Python's
`round`; the binary-float representation is idealized away). -/
def roundHalfEven (x : ℚ) : ℤ :=
  let f := ⌊x⌋
  let r := x - f
  if r < 1/2 then f
  else if 1/2 < r then f + 1
  else if f % 2 = 0 then f else f + 1

/-- `round(x, 3)` on an exact rational. -/
def round3 (x : ℚ) : ℚ := (roundHalfEven (x * 1000) : ℚ) / 1000

/-- One row of the OCR engine's tabular output (`pytesseract.image_to_data`):
hierarchy level, grouping keys, text and the pixel rectangle. -/
structure OcrRow where
  level : Nat
  line_num : Nat
  par_num : Nat
  block_num : Nat
  text : String
  left : Int
  top : Int
  rectWidth : Int
  rectHeight : Int
deriving DecidableEq

/-- One rasterized page: its pixel size and its OCR rows. -/
structure OcrPage where
  width : Nat
  height : Nat
  rows : List OcrRow
deriving DecidableEq

/-- Truthiness of `text.strip()`: the text has some non-whitespace char. -/
def stripTruthy (s : String) : Bool := s.data.any (fun c => !pyWS c)

/-- The `word_lookup` of `extract_text_with_positions`: the texts of the
level-5 rows with non-blank text whose `(line_num, par_num, block_num)` key
matches, in row order. -/
def word_lookup (rows : List OcrRow) (ln pn bn : Nat) : List String :=
  rows.filterMap (fun r =>
    if r.level == 5 && stripTruthy r.text &&
        r.line_num == ln && r.par_num == pn && r.block_num == bn then
      some r.text
    else none)

/-- One emitted line: joined text and the normalized 4-corner polygon. -/
structure OcrLine where
  line : String
  coordinates : List (List ℚ)
deriving DecidableEq

/-- The bounding-box computation of `extract_text_with_positions` (`utils.py`
lines 104-116) for a pixel rectangle on a page of the given size. -/
def normalizedBox (x y w h : Int) (pageW pageH : Nat) : List (List ℚ) :=
  [[round3 ((x : ℚ) / (pageW : ℚ)), round3 ((y : ℚ) / (pageH : ℚ))],
   [round3 (((x + w : ℤ) : ℚ) / (pageW : ℚ)), round3 ((y : ℚ) / (pageH : ℚ))],
   [round3 (((x + w : ℤ) : ℚ) / (pageW : ℚ)),
    round3 (((y + h : ℤ) : ℚ) / (pageH : ℚ))],
   [round3 ((x : ℚ) / (pageW : ℚ)), round3 (((y + h : ℤ) : ℚ) / (pageH : ℚ))]]

/-- The per-page loop of `extract_text_with_positions`: every level-4 row
whose word lookup is non-empty emits its joined line text and the normalized
box of the row's own rectangle. -/
def pageEntries (pg : OcrPage) : List OcrLine :=
  pg.rows.filterMap (fun r =>
    if r.level == 4 then
      let words := word_lookup pg.rows r.line_num r.par_num r.block_num
      if words.isEmpty then none
      else some { line := String.intercalate " " words,
                  coordinates :=
                    normalizedBox r.left r.top r.rectWidth r.rectHeight
                      pg.width pg.height }
    else none)

/-- `extract_text_with_positions` from `utils.py`, over the rasterized pages
(the PDF conversion and the OCR engine are external; their output is the
input here): the per-page mapping (pages keyed `"Page N"`, 1-indexed, a key
appearing only when the page emitted a line, as with `defaultdict`) and the
space-joined full text. -/
def extract_text_with_positions (pages : List OcrPage) :
    List (String × List OcrLine) × String :=
  ((pages.enum.filterMap (fun p =>
      let es := pageEntries p.2
      if es.isEmpty then none
      else some ("Page " ++ toString (p.1 + 1), es))),
   String.intercalate " "
     ((pages.map (fun pg => (pageEntries pg).map OcrLine.line)).flatten))

/-- A Python runtime value with object identity: mutable containers (dicts,
lists) carry the id of the heap object they denote, immutable strings and
numbers do not.  Two values share mutable structure exactly when they share
an id; `deepcopy` is the operation that re-tags with fresh ids. -/
inductive PVal where
  | pstr (s : String)
  | pnum (n : Int)
  | parr (id : Nat) (items : List PVal)
  | pdict (id : Nat) (entries : List (String × PVal))

mutual

/-- The ids of all mutable objects reachable from a value. -/
def pvIds : PVal → List Nat
  | .pstr _ => []
  | .pnum _ => []
  | .parr i items => i :: pvIdsList items
  | .pdict i es => i :: pvIdsEntries es

/-- Ids reachable from a list of values. -/
def pvIdsList : List PVal → List Nat
  | [] => []
  | v :: vs => pvIds v ++ pvIdsList vs

/-- Ids reachable from dict entries. -/
def pvIdsEntries : List (String × PVal) → List Nat
  | [] => []
  | (_, v) :: rest => pvIds v ++ pvIdsEntries rest

end

mutual

/-- Forgetting identity turns a runtime value back into its JSON shape. -/
def pvErase : PVal → Json
  | .pstr s => .str s
  | .pnum n => .num n
  | .parr _ items => .arr (pvEraseList items)
  | .pdict _ es => .obj (pvEraseEntries es)

/-- Erasure of a list of values. -/
def pvEraseList : List PVal → List Json
  | [] => []
  | v :: vs => pvErase v :: pvEraseList vs

/-- Erasure of dict entries. -/
def pvEraseEntries : List (String × PVal) → List (String × Json)
  | [] => []
  | (k, v) :: rest => (k, pvErase v) :: pvEraseEntries rest

end

mutual

/-- `copy.deepcopy` in the tagged model: same shape, every mutable node
re-allocated at a fresh id (the counter is the allocator). -/
def pdeepcopy : PVal → Nat → PVal × Nat
  | .pstr s, n => (.pstr s, n)
  | .pnum m, n => (.pnum m, n)
  | .parr _ items, n =>
      let r := pdeepcopyList items (n + 1)
      (.parr n r.1, r.2)
  | .pdict _ es, n =>
      let r := pdeepcopyEntries es (n + 1)
      (.pdict n r.1, r.2)

/-- Deep copy of a list of values. -/
def pdeepcopyList : List PVal → Nat → List PVal × Nat
  | [], n => ([], n)
  | v :: vs, n =>
      let r := pdeepcopy v n
      let rs := pdeepcopyList vs r.2
      (r.1 :: rs.1, rs.2)

/-- Deep copy of dict entries. -/
def pdeepcopyEntries : List (String × PVal) → Nat → List (String × PVal) × Nat
  | [], n => ([], n)
  | (k, v) :: rest, n =>
      let r := pdeepcopy v n
      let rs := pdeepcopyEntries rest r.2
      ((k, r.1) :: rs.1, rs.2)

end

/-- `key in source` on a tagged dict. -/
def pvHasKey (source : PVal) (k : String) : Bool :=
  match source with
  | .pdict _ es => es.any (fun kv => kv.1 == k)
  | _ => false

/-- First binding of a key in tagged dict entries. -/
def pvGetEntries (es : List (String × PVal)) (k : String) : PVal :=
  match es with
  | [] => .pstr ""
  | (k₀, v₀) :: rest => if k₀ = k then v₀ else pvGetEntries rest k

/-- `source[key]` on a tagged dict, guarded by `pvHasKey` at the call site. -/
def pvGet (source : PVal) (k : String) : PVal :=
  match source with
  | .pdict _ es => pvGetEntries es k
  | _ => .pstr ""

mutual

/-- `populate_template` in the tagged model: the output dict of each
recursion level is a freshly allocated object, a populated leaf is a
`deepcopy` of the source field, and any other template value is returned as
the very object (same ids) the template held. -/
def populateTagged : PVal → PVal → Nat → PVal × Nat
  | .pdict _ kvs, source, n =>
      let r := populateTaggedEntries kvs source (n + 1)
      (.pdict n r.1, r.2)
  | t, _, n => (t, n)

/-- The per-entry loop of the tagged `populate_template`. -/
def populateTaggedEntries :
    List (String × PVal) → PVal → Nat → List (String × PVal) × Nat
  | [], _, n => ([], n)
  | (k, v) :: rest, source, n =>
      if (match v with | .pstr s => s = "" | _ => false) && pvHasKey source k
      then
        let r := pdeepcopy (pvGet source k) n
        let rs := populateTaggedEntries rest source r.2
        ((k, r.1) :: rs.1, rs.2)
      else
        let r := populateTagged v source n
        let rs := populateTaggedEntries rest source r.2
        ((k, r.1) :: rs.1, rs.2)

end

/-! ### Association-list lemmas shared by the claim proofs. -/

theorem jLookup_jSet_self (kvs : List (String × Json)) (k : String) (v : Json) :
    jLookup (jSet kvs k v) k = some v := by
  induction kvs with
  | nil => simp [jSet, jLookup]
  | cons hd tl ih =>
      obtain ⟨k₀, v₀⟩ := hd
      by_cases h : k₀ = k
      · simp [jSet, h, jLookup]
      · simp [jSet, h, jLookup, ih]

theorem jLookup_jSet_ne (kvs : List (String × Json)) (k k2 : String) (v : Json)
    (h : k2 ≠ k) : jLookup (jSet kvs k v) k2 = jLookup kvs k2 := by
  have hk2 : ¬ k = k2 := fun hh => h hh.symm
  induction kvs with
  | nil => simp [jSet, jLookup, hk2]
  | cons hd tl ih =>
      obtain ⟨k₀, v₀⟩ := hd
      by_cases hk : k₀ = k
      · subst hk
        simp [jSet, jLookup, hk2]
      · simp [jSet, hk, jLookup, ih]

theorem jHasKey_jSet (kvs : List (String × Json)) (k k2 : String) (v : Json) :
    jHasKey (jSet kvs k v) k2 = (jHasKey kvs k2 || k == k2) := by
  induction kvs with
  | nil => simp [jSet, jHasKey]
  | cons hd tl ih =>
      obtain ⟨k₀, v₀⟩ := hd
      by_cases hk : k₀ = k
      · subst hk
        by_cases h2 : k₀ = k2 <;> simp [jSet, jHasKey, h2]
      · by_cases h2 : k₀ = k2
        · subst h2
          simp [jSet, hk, jHasKey]
        · simp [jSet, hk, jHasKey, h2, ih, Bool.or_assoc]

theorem jLookup_isSome_of_jHasKey (kvs : List (String × Json)) (k : String)
    (h : jHasKey kvs k = true) : ∃ v, jLookup kvs k = some v := by
  induction kvs with
  | nil => simp [jHasKey] at h
  | cons hd tl ih =>
      obtain ⟨k₀, v₀⟩ := hd
      by_cases hk : k₀ = k
      · exact ⟨v₀, by simp [jLookup, hk]⟩
      · simp [jHasKey, hk] at h
        obtain ⟨v, hv⟩ := ih h
        exact ⟨v, by simp [jLookup, hk, hv]⟩

theorem jHasKey_of_jLookup (kvs : List (String × Json)) (k : String) (v : Json)
    (h : jLookup kvs k = some v) : jHasKey kvs k = true := by
  induction kvs with
  | nil => simp [jLookup] at h
  | cons hd tl ih =>
      obtain ⟨k₀, v₀⟩ := hd
      by_cases hk : k₀ = k
      · simp [jHasKey, hk]
      · simp [jLookup, hk] at h
        simp [jHasKey, hk, ih h]

theorem jHasKey_none_of_jLookup_none (kvs : List (String × Json)) (k : String)
    (h : jLookup kvs k = none) : jHasKey kvs k = false := by
  cases hh : jHasKey kvs k with
  | false => rfl
  | true =>
      obtain ⟨v, hv⟩ := jLookup_isSome_of_jHasKey kvs k hh
      rw [h] at hv
      exact absurd hv (by simp)

/-! ### The Extracted-Field position invariant (spec section 3). -/

/-- Position-invariant check for one object's entry list: when the object is
an Extracted Field (it has an `Extracted Value` key), `Position` is present
exactly when the value differs from the sentinel `"N/A"`. -/
def fieldOK (kvs : List (String × Json)) : Bool :=
  if jHasKey kvs "Extracted Value" then
    jHasKey kvs "Position" ==
      !(jLookup kvs "Extracted Value" == some (Json.str "N/A"))
  else true

mutual

/-- The position invariant, enforced at every object reachable in the
document: every Extracted Field satisfies `fieldOK`. -/
def invJson : Json → Bool
  | .obj kvs => fieldOK kvs && invEntries kvs
  | .arr xs => invList xs
  | _ => true

/-- The invariant over the values of an entry list. -/
def invEntries : List (String × Json) → Bool
  | [] => true
  | (_, v) :: rest => invJson v && invEntries rest

/-- The invariant over the items of an array. -/
def invList : List Json → Bool
  | [] => true
  | v :: vs => invJson v && invList vs

end

mutual

/-- No object along the template's dict spine carries an `Extracted Value`
key (true of the Contract Template, whose keys are field names). -/
def noEVJson : Json → Bool
  | .obj kvs => !jHasKey kvs "Extracted Value" && noEVEntries kvs
  | _ => true

/-- `noEVJson` over an entry list. -/
def noEVEntries : List (String × Json) → Bool
  | [] => true
  | (_, v) :: rest => noEVJson v && noEVEntries rest

end

/-- The document's `Performing Rights Organization` field carries the
sentinel extracted value `"N/A"`. -/
def proEVisNA (j : Json) : Prop :=
  ∃ kvs es, j = Json.obj kvs ∧
    jLookup kvs "Performing Rights Organization" = some (.obj es) ∧
    jLookup es "Extracted Value" = some (.str "N/A")

/-! ### Claim theorems. -/

/-- Configuration with every integration present, used to exercise the
pipeline at concrete inputs. -/
def cfgFull : AppConfig :=
  { airtable_api_key := some "key", airtable_base_id := some "base",
    s3_client := true, s3_bucket := some "bucket", aws_region := "us-east-1",
    mongo_collection := .connected,
    frontend_url := some "https://review.example.com" }

/-- External-call outcomes for a fully successful concrete run. -/
def extFull : ExtOutcomes :=
  { parsed := .ok (.obj [("Performing Rights Organization",
      .obj [("Extracted Value", .str "BMI"), ("Position", .num 1)])]),
    airtable_result := some ([("Details", "recD")],
      some (.str "Writer - 01 January 2024 - Admin Agreement")),
    s3_upload_ok := true,
    uuid := "11111111-2222-4333-8444-555555555555",
    amendment_create_id := some "recAmend",
    mongo_insert_id := some "mongo1",
    now := 1700000000 }

/-- C1: the utilities-record creator, as invoked by `process_single_pdf`,
does create exactly one CRM record with `Link = "{frontend_url}/{contract_id}"`,
`Amendment Changes = ""` and `Contract` = the agreement name — but it targets
the table `"Amendment Changes"` (the source default that `app.py` never
overrides), not the table `"Contract Utilities"` the claim names; this
evaluation exhibits the divergence at a concrete run. -/
theorem amendment_changes_create_call_spec :
    update_amendment_changes_table (some "https://review.example.com")
        "11111111-2222-4333-8444-555555555555"
        (some (.str "Writer - 01 January 2024 - Admin Agreement"))
        (some "key") (some "base") "Amendment Changes" =
      some { table := "Amendment Changes",
             fields := [("Link",
                 .str "https://review.example.com/11111111-2222-4333-8444-555555555555"),
               ("Amendment Changes", .str ""),
               ("Contract",
                 .str "Writer - 01 January 2024 - Admin Agreement")] } ∧
    (process_single_pdf cfgFull "contract" "outputs/" extFull).2.1 =
      [{ table := "Amendment Changes",
         fields := [("Link",
             .str "https://review.example.com/11111111-2222-4333-8444-555555555555"),
           ("Amendment Changes", .str ""),
           ("Contract",
             .str "Writer - 01 January 2024 - Admin Agreement")] }] ∧
    "Amendment Changes" ≠ "Contract Utilities" :=
  ⟨by decide, by decide, by decide⟩

/-- C2: for the flat document whose PRO field holds `"Kobalt"` (outside the
accepted list) with a position, `update_extracted_value` coerces the value to
`"Other"` and then binds `Other Performing Rights Organization` to the
already-coerced field object, so the stored copy reads `"Other"` — the
pre-coercion text `"Kobalt"` is not preserved, contrary to the claim. -/
theorem pro_other_copy_postcoercion :
    update_extracted_value (.obj [("Performing Rights Organization",
        .obj [("Extracted Value", .str "Kobalt"),
              ("Position", .obj [("Page", .num 3)])])]) =
      .ok (.obj [("Performing Rights Organization",
              .obj [("Extracted Value", .str "Other"),
                    ("Position", .obj [("Page", .num 3)])]),
             ("Other Performing Rights Organization",
              .obj [("Extracted Value", .str "Other"),
                    ("Position", .obj [("Page", .num 3)])])]) ∧
    Json.str "Other" ≠ Json.str "Kobalt" :=
  ⟨by decide, by decide⟩

/-- C8: `flatten_extracted_data` wraps a plain `Territory` string in a
one-element list, drops the key for the `"N/A"` sentinel and for the empty
string, and passes an already-list value through unchanged. -/
theorem flatten_extracted_data_examples :
    flatten_extracted_data
        [("Territory", .obj [("Extracted Value", .str "USA")])] =
      [("Territory", .arr [.str "USA"])] ∧
    flatten_extracted_data
        [("Territory", .obj [("Extracted Value", .str "N/A")])] = [] ∧
    flatten_extracted_data
        [("Territory", .obj [("Extracted Value", .str "")])] = [] ∧
    flatten_extracted_data
        [("Territory", .obj [("Extracted Value",
            .arr [.str "USA", .str "Canada"])])] =
      [("Territory", .arr [.str "USA", .str "Canada"])] :=
  ⟨by decide, by decide, by decide, by decide⟩

/-- C3 counterexample: the flat document whose PRO field is the positionless
sentinel `"N/A"` satisfies the invariant, survives normalization and
templating, yet the result carries a positionless `"Other"` — the invariant
is broken, refuting the claim as stated. -/
theorem pro_na_breaks_position_invariant :
    invJson (.obj [("Performing Rights Organization",
        .obj [("Extracted Value", .str "N/A")])]) = true ∧
    update_extracted_value (.obj [("Performing Rights Organization",
        .obj [("Extracted Value", .str "N/A")])]) =
      .ok (.obj [("Performing Rights Organization",
              .obj [("Extracted Value", .str "Other")]),
             ("Other Performing Rights Organization",
              .obj [("Extracted Value", .str "Other")])]) ∧
    invJson (populate_template concord_template
        (.obj [("Performing Rights Organization",
              .obj [("Extracted Value", .str "Other")]),
           ("Other Performing Rights Organization",
              .obj [("Extracted Value", .str "Other")])])) = false :=
  ⟨by decide, by decide, by decide⟩

/-- C4 counterexample: with an empty flat document, the template leaf
`[Prior] Pass-Through Income Included in Concord` (whose default is `"No"`,
not the empty string) stays `"No"` in the populated output, refuting the
claim that every template key absent from the flat document remains an empty
string. -/
theorem prior_passthrough_default_not_empty :
    jLookup2 (populate_template concord_template (.obj []))
        "General Information"
        "[Prior] Pass-Through Income Included in Concord" =
      some (.str "No") ∧
    Json.str "No" ≠ Json.str "" :=
  ⟨by decide, by decide⟩

/-- C5 counterexample: on the pretty-printed pair the substitution joins the
whitespace-split tokens, so the comma stays glued to the first number and the
output is `"[0.1, 0.2]"`, not the claimed `"[0.1 0.2]"`. -/
theorem compact_coordinates_keeps_commas :
    compact_coordinates "[\n  0.1,\n  0.2\n]" = "[0.1, 0.2]" ∧
    "[0.1, 0.2]" ≠ "[0.1 0.2]" :=
  ⟨by decide, by decide⟩

/-! ### Lemmas about the coordinate-compaction pattern. -/

theorem mem_take_of_le_takeWhile (p : Char → Bool) :
    ∀ (l : List Char) (n : Nat), n ≤ (l.takeWhile p).length →
      ∀ c ∈ l.take n, p c = true := by
  intro l
  induction l with
  | nil => intro n _ c hc; simp at hc
  | cons x xs ih =>
      intro n hn c hc
      cases n with
      | zero => simp at hc
      | succ m =>
          cases hp : p x with
          | false => simp [List.takeWhile, hp] at hn
          | true =>
              simp [List.takeWhile, hp] at hn
              simp [List.take] at hc
              rcases hc with hc | hc
              · rw [hc]; exact hp
              · exact ih m hn c hc

theorem ccClass_of_pyWS (c : Char) (h : pyWS c = true) : ccClass c = true := by
  simp [ccClass, h]

theorem ccTryGroup_some_inv (p grp rest : List Char) :
    ∀ (fuel g : Nat), ccTryGroup p g fuel = some (grp, rest) →
      ∃ gt b, g ≤ gt ∧ gt < g + fuel ∧ 1 ≤ b ∧ grp = p.take gt ∧
        (∀ c ∈ (p.drop gt).take b, pyWS c = true) ∧
        (p.drop gt).drop b = ']' :: rest := by
  intro fuel
  induction fuel with
  | zero => intro g h; simp [ccTryGroup] at h
  | succ f ih =>
      intro g h
      rw [ccTryGroup] at h
      split at h
      case isTrue hcond =>
        simp only [Bool.and_eq_true, decide_eq_true_eq] at hcond
        simp only [Option.some.injEq, Prod.mk.injEq] at h
        obtain ⟨h1, h2⟩ := h
        refine ⟨g, ((p.drop g).takeWhile pyWS).length, le_refl g,
          by omega, hcond.1, h1.symm, ?_, ?_⟩
        · exact mem_take_of_le_takeWhile pyWS (p.drop g) _ (le_refl _)
        · have hc2 := hcond.2
          cases hq : (p.drop g).drop ((p.drop g).takeWhile pyWS).length with
          | nil => rw [hq] at hc2; simp at hc2
          | cons d ds =>
              rw [hq] at hc2 h2
              simp only [List.head?, Option.some.injEq] at hc2
              simp only [List.tail] at h2
              rw [hc2, h2]
      case isFalse hcond =>
        obtain ⟨gt, b, hg, hlt, hb, hgrp, hws, hrest⟩ := ih (g + 1) h
        exact ⟨gt, b, by omega, by omega, hb, hgrp, hws, hrest⟩

theorem ccTryWS_some_inv (t grp rest : List Char) :
    ∀ a, a ≤ (t.takeWhile pyWS).length → ccTryWS t a = some (grp, rest) →
      ∃ aw gt b, 1 ≤ aw ∧ 1 ≤ gt ∧ 1 ≤ b ∧
        grp = (t.drop aw).take gt ∧
        (∀ c ∈ t.take aw, pyWS c = true) ∧
        (∀ c ∈ grp, ccClass c = true) ∧
        (∀ c ∈ ((t.drop aw).drop gt).take b, pyWS c = true) ∧
        ((t.drop aw).drop gt).drop b = ']' :: rest := by
  intro a
  induction a with
  | zero => intro _ h; simp [ccTryWS] at h
  | succ a0 ih =>
      intro ha h
      rw [ccTryWS] at h
      cases hg : ccTryGroup (t.drop (a0 + 1)) 1
          (((t.drop (a0 + 1)).takeWhile ccClass).length) with
      | none =>
          rw [hg] at h
          exact ih (by omega) h
      | some r =>
          rw [hg] at h
          obtain ⟨r1, r2⟩ := r
          simp only [Option.some.injEq] at h
          obtain ⟨h1, h2⟩ : grp = r1 ∧ rest = r2 := by
            constructor
            · exact (congrArg Prod.fst h).symm
            · exact (congrArg Prod.snd h).symm
          subst h1; subst h2
          obtain ⟨gt, b, hg1, hglt, hb, hgrp, hws, hrest⟩ :=
            ccTryGroup_some_inv (t.drop (a0 + 1)) grp rest _ 1 hg
          refine ⟨a0 + 1, gt, b, by omega, hg1, hb, hgrp, ?_, ?_, hws, hrest⟩
          · exact mem_take_of_le_takeWhile pyWS t (a0 + 1) ha
          · intro c hc
            rw [hgrp] at hc
            exact mem_take_of_le_takeWhile ccClass (t.drop (a0 + 1)) gt
              (by omega) c hc

theorem ccMatchHead_some_inv (cs grp rest : List Char)
    (h : ccMatchHead cs = some (grp, rest)) :
    ∃ mid, cs = '[' :: (mid ++ ']' :: rest) ∧
      (∀ c ∈ mid, ccClass c = true) := by
  cases cs with
  | nil => simp [ccMatchHead] at h
  | cons c t =>
      rw [ccMatchHead] at h
      by_cases hc : c = '['
      · rw [if_pos hc] at h
        subst hc
        obtain ⟨aw, gt, b, _, _, _, hgrp, hws1, hcls, hws2, hrest⟩ :=
          ccTryWS_some_inv t grp rest _ (le_refl _) h
        refine ⟨t.take aw ++ grp ++ ((t.drop aw).drop gt).take b, ?_, ?_⟩
        · have e1 : t = t.take aw ++ t.drop aw := (List.take_append_drop aw t).symm
          have e2 : t.drop aw = grp ++ (t.drop aw).drop gt := by
            rw [hgrp]; exact (List.take_append_drop gt (t.drop aw)).symm
          have e3 : (t.drop aw).drop gt =
              ((t.drop aw).drop gt).take b ++ ']' :: rest := by
            conv_lhs => rw [← List.take_append_drop b ((t.drop aw).drop gt)]
            rw [hrest]
          rw [List.cons_inj_right]
          conv_lhs => rw [e1, e2, e3]
          simp [List.append_assoc]
        · intro c hc
          simp only [List.mem_append] at hc
          rcases hc with (hc | hc) | hc
          · exact ccClass_of_pyWS c (hws1 c hc)
          · exact hcls c hc
          · exact ccClass_of_pyWS c (hws2 c hc)
      · rw [if_neg hc] at h
        simp at h

theorem append_singleton_eq_split (e : Char) :
    ∀ (xs ys zs : List Char), xs ++ [e] = ys ++ e :: zs →
      e ∉ xs → e ∉ ys → xs = ys ∧ zs = [] := by
  intro xs
  induction xs with
  | nil =>
      intro ys zs h _ hy
      cases ys with
      | nil =>
          simp at h
          exact ⟨rfl, h⟩
      | cons y ys2 =>
          simp at h
  | cons x xs2 ih =>
      intro ys zs h hx hy
      cases ys with
      | nil =>
          simp at h
          exact absurd h.1 (by intro hh; exact hx (by simp [hh]))
      | cons y ys2 =>
          simp at h
          obtain ⟨hxy, hrest⟩ := h
          have := ih ys2 zs (by simpa using hrest)
            (fun hm => hx (List.mem_cons_of_mem x hm))
            (fun hm => hy (List.mem_cons_of_mem y hm))
          exact ⟨by rw [hxy, this.1], this.2⟩

theorem ccMatchHead_none_of_bad_char (mid : List Char)
    (hbad : ∃ c ∈ mid, ccClass c = false) (hnb : ']' ∉ mid) :
    ccMatchHead ('[' :: (mid ++ [']'])) = none := by
  cases hm : ccMatchHead ('[' :: (mid ++ [']'])) with
  | none => rfl
  | some r =>
      exfalso
      obtain ⟨r1, r2⟩ := r
      obtain ⟨l, hl, hcls⟩ := ccMatchHead_some_inv _ r1 r2 hm
      have h2 : mid ++ [']'] = l ++ ']' :: r2 := by
        have := hl
        simp only [List.cons_append] at this
        exact List.cons_inj_right .. |>.mp this
      have hnl : ']' ∉ l := by
        intro hmem
        have := hcls ']' hmem
        simp [ccClass, pyWS] at this
      obtain ⟨hml, _⟩ := append_singleton_eq_split ']' mid l r2 h2 hnb hnl
      obtain ⟨c, hc, hcf⟩ := hbad
      have := hcls c (hml ▸ hc)
      rw [this] at hcf
      exact Bool.noConfusion hcf

theorem ccSub_id_of_no_open :
    ∀ (fuel : Nat) (l : List Char), '[' ∉ l → ccSub fuel l = l := by
  intro fuel
  induction fuel with
  | zero => intro l _; rfl
  | succ f ih =>
      intro l hl
      cases l with
      | nil => rfl
      | cons c t =>
          have hc : ¬ c = '[' := fun hh => hl (by simp [hh])
          rw [ccSub, ccMatchHead, if_neg hc]
          rw [ih t (fun hm => hl (List.mem_cons_of_mem c hm))]

/-- C5 (amended): on the pretty-printed pair `"[\n  0.1,\n  0.2\n]"` the
compaction yields `"[0.1, 0.2]"` (tokens joined by single spaces, the comma
kept); and a bracketed run holding a character outside digits, dots, commas,
minus signs, exponent markers and whitespace — and no nested bracket — is
left unmodified. -/
theorem compact_coordinates_spec :
    compact_coordinates "[\n  0.1,\n  0.2\n]" = "[0.1, 0.2]" ∧
    ∀ (mid : List Char), (∃ c ∈ mid, ccClass c = false) →
      '[' ∉ mid → ']' ∉ mid →
      compact_coordinates (String.mk ('[' :: (mid ++ [']']))) =
        String.mk ('[' :: (mid ++ [']'])) := by
  constructor
  · decide
  · intro mid hbad hob hcb
    show String.mk (ccSub ('[' :: (mid ++ [']'])).length ('[' :: (mid ++ [']']))) =
      String.mk ('[' :: (mid ++ [']']))
    have hlen : ('[' :: (mid ++ [']'])).length = (mid.length + 1) + 1 := by
      simp
    rw [hlen]
    have hstep : ccSub ((mid.length + 1) + 1) ('[' :: (mid ++ [']'])) =
        '[' :: ccSub (mid.length + 1) (mid ++ [']']) := by
      rw [ccSub, ccMatchHead_none_of_bad_char mid hbad hcb]
    rw [hstep, ccSub_id_of_no_open (mid.length + 1) (mid ++ [']'])
      (by
        intro hm
        rcases List.mem_append.mp hm with hm | hm
        · exact hob hm
        · simp at hm)]

/-- Witness for the universal part of the amended C5: the bracketed run
`[\x22a\x22: 1]` (a JSON-object-like body) holds characters outside the
numeric class and no nested bracket, and compaction leaves it unchanged. -/
theorem compact_coordinates_spec_witness :
    (∃ c ∈ "\"a\": 1".data, ccClass c = false) ∧
    '[' ∉ "\"a\": 1".data ∧ ']' ∉ "\"a\": 1".data ∧
    compact_coordinates (String.mk ('[' :: "\"a\": 1".data ++ [']'])) =
      String.mk ('[' :: "\"a\": 1".data ++ [']']) :=
  ⟨by decide, by decide, by decide,
   compact_coordinates_spec.2 "\"a\": 1".data (by decide) (by decide)
     (by decide)⟩

/-- C6: every OCR line entry (hierarchy level 4, non-empty word lookup) on a
page of positive pixel size emits exactly the 4-corner polygon
top-left, top-right, bottom-right, bottom-left, with `x` normalized by the
page width, `y` by the page height, and every component rounded to 3
decimals. -/
theorem ocr_line_polygon_spec (pg : OcrPage) (r : OcrRow)
    (hr : r ∈ pg.rows) (hlvl : r.level = 4)
    (hw : word_lookup pg.rows r.line_num r.par_num r.block_num ≠ [])
    (hpw : 0 < pg.width) (hph : 0 < pg.height) :
    ({ line := String.intercalate " "
         (word_lookup pg.rows r.line_num r.par_num r.block_num),
       coordinates :=
         [[round3 ((r.left : ℚ) / (pg.width : ℚ)),
           round3 ((r.top : ℚ) / (pg.height : ℚ))],
          [round3 (((r.left + r.rectWidth : ℤ) : ℚ) / (pg.width : ℚ)),
           round3 ((r.top : ℚ) / (pg.height : ℚ))],
          [round3 (((r.left + r.rectWidth : ℤ) : ℚ) / (pg.width : ℚ)),
           round3 (((r.top + r.rectHeight : ℤ) : ℚ) / (pg.height : ℚ))],
          [round3 ((r.left : ℚ) / (pg.width : ℚ)),
           round3 (((r.top + r.rectHeight : ℤ) : ℚ) / (pg.height : ℚ))]] } :
       OcrLine) ∈ pageEntries pg := by
  apply List.mem_filterMap.mpr
  refine ⟨r, hr, ?_⟩
  have hempty : (word_lookup pg.rows r.line_num r.par_num r.block_num).isEmpty
      = false := by
    cases hwl : word_lookup pg.rows r.line_num r.par_num r.block_num with
    | nil => exact absurd hwl hw
    | cons a as => rfl
  simp only [hlvl, beq_self_eq_true, if_true, hempty, Bool.false_eq_true,
    if_false, normalizedBox]

/-- Witness for C6 at a concrete page: a 100 by 200 page with one level-4
line of rectangle (10, 20, 30, 40) and two words. -/
theorem ocr_line_polygon_spec_witness :
    (word_lookup
        [{ level := 4, line_num := 1, par_num := 1, block_num := 1,
           text := "", left := 10, top := 20, rectWidth := 30,
           rectHeight := 40 },
         { level := 5, line_num := 1, par_num := 1, block_num := 1,
           text := "Hello", left := 10, top := 20, rectWidth := 14,
           rectHeight := 40 },
         { level := 5, line_num := 1, par_num := 1, block_num := 1,
           text := "World", left := 26, top := 20, rectWidth := 14,
           rectHeight := 40 }] 1 1 1 ≠ []) ∧
    (({ line := String.intercalate " "
          (word_lookup
            [{ level := 4, line_num := 1, par_num := 1, block_num := 1,
               text := "", left := 10, top := 20, rectWidth := 30,
               rectHeight := 40 },
             { level := 5, line_num := 1, par_num := 1, block_num := 1,
               text := "Hello", left := 10, top := 20, rectWidth := 14,
               rectHeight := 40 },
             { level := 5, line_num := 1, par_num := 1, block_num := 1,
               text := "World", left := 26, top := 20, rectWidth := 14,
               rectHeight := 40 }] 1 1 1),
        coordinates :=
          [[round3 ((10 : ℚ) / (100 : ℚ)), round3 ((20 : ℚ) / (200 : ℚ))],
           [round3 (((10 + 30 : ℤ) : ℚ) / (100 : ℚ)),
            round3 ((20 : ℚ) / (200 : ℚ))],
           [round3 (((10 + 30 : ℤ) : ℚ) / (100 : ℚ)),
            round3 (((20 + 40 : ℤ) : ℚ) / (200 : ℚ))],
           [round3 ((10 : ℚ) / (100 : ℚ)),
            round3 (((20 + 40 : ℤ) : ℚ) / (200 : ℚ))]] } : OcrLine) ∈
      pageEntries
        { width := 100, height := 200,
          rows :=
            [{ level := 4, line_num := 1, par_num := 1, block_num := 1,
               text := "", left := 10, top := 20, rectWidth := 30,
               rectHeight := 40 },
             { level := 5, line_num := 1, par_num := 1, block_num := 1,
               text := "Hello", left := 10, top := 20, rectWidth := 14,
               rectHeight := 40 },
             { level := 5, line_num := 1, par_num := 1, block_num := 1,
               text := "World", left := 26, top := 20, rectWidth := 14,
               rectHeight := 40 }] }) :=
  ⟨by decide,
   ocr_line_polygon_spec
     { width := 100, height := 200,
       rows :=
         [{ level := 4, line_num := 1, par_num := 1, block_num := 1,
            text := "", left := 10, top := 20, rectWidth := 30,
            rectHeight := 40 },
          { level := 5, line_num := 1, par_num := 1, block_num := 1,
            text := "Hello", left := 10, top := 20, rectWidth := 14,
            rectHeight := 40 },
          { level := 5, line_num := 1, par_num := 1, block_num := 1,
            text := "World", left := 26, top := 20, rectWidth := 14,
            rectHeight := 40 }] }
     { level := 4, line_num := 1, par_num := 1, block_num := 1,
       text := "", left := 10, top := 20, rectWidth := 30, rectHeight := 40 }
     (by decide) rfl (by decide) (by decide) (by decide)⟩

/-! ### Shape lemmas for the normalization steps. -/

theorem stepMapping_ok_shape (key : String) (m : List (String × String))
    (kvs : List (String × Json)) (j' : Json)
    (h : stepMapping key m (.obj kvs) = .ok j') :
    j' = .obj kvs ∨ ∃ x, j' = .obj (jSet kvs key x) := by
  rw [stepMapping] at h
  cases hk : jHasKey kvs key with
  | false =>
      left
      simp only [pyIn, hk] at h
      exact (Except.ok.inj h).symm
  | true =>
      simp only [pyIn, hk] at h
      cases hlk : jLookup kvs key with
      | none => simp [pyGetItem, hlk] at h
      | some v =>
          simp only [pyGetItem, hlk] at h
          cases v with
          | obj fkvs =>
              cases hev : jHasKey fkvs "Extracted Value" with
              | false =>
                  left
                  simp only [pyIn, hev] at h
                  exact (Except.ok.inj h).symm
              | true =>
                  simp only [pyIn, hev] at h
                  cases hlev : jLookup fkvs "Extracted Value" with
                  | none => simp [pyGetItem, hlev] at h
                  | some ov =>
                      simp only [pyGetItem, hlev] at h
                      cases ov with
                      | str s =>
                          right
                          cases hms : choice_of_law_mapping.lookup s with
                          | none =>
                              cases hms2 : m.lookup s with
                              | none =>
                                  simp only [pyMapGetD, hms2] at h
                                  exact ⟨_, (Except.ok.inj h).symm⟩
                              | some w =>
                                  simp only [pyMapGetD, hms2] at h
                                  exact ⟨_, (Except.ok.inj h).symm⟩
                          | some w =>
                              cases hms2 : m.lookup s with
                              | none =>
                                  simp only [pyMapGetD, hms2] at h
                                  exact ⟨_, (Except.ok.inj h).symm⟩
                              | some w2 =>
                                  simp only [pyMapGetD, hms2] at h
                                  exact ⟨_, (Except.ok.inj h).symm⟩
                      | num n =>
                          right
                          simp only [pyMapGetD] at h
                          exact ⟨_, (Except.ok.inj h).symm⟩
                      | arr xs => simp [pyMapGetD] at h
                      | obj o => simp [pyMapGetD] at h
          | str s =>
              cases hsc : strContains s "Extracted Value" with
              | false =>
                  left
                  simp only [pyIn, hsc] at h
                  exact (Except.ok.inj h).symm
              | true =>
                  simp only [pyIn, hsc, pyGetItem] at h
                  exact Except.noConfusion h
          | num n => simp [pyIn] at h
          | arr xs =>
              cases hsc : xs.contains (Json.str "Extracted Value") with
              | false =>
                  left
                  simp only [pyIn, hsc] at h
                  exact (Except.ok.inj h).symm
              | true =>
                  simp only [pyIn, hsc, pyGetItem] at h
                  exact Except.noConfusion h

theorem stepMapping_ok_lookup_ne (key : String) (m : List (String × String))
    (kvs : List (String × Json)) (j' : Json) (k2 : String) (hkey : k2 ≠ key)
    (h : stepMapping key m (.obj kvs) = .ok j') :
    ∃ kvs2, j' = .obj kvs2 ∧ jLookup kvs2 k2 = jLookup kvs k2 := by
  rcases stepMapping_ok_shape key m kvs j' h with h1 | ⟨x, h1⟩
  · exact ⟨kvs, h1, rfl⟩
  · exact ⟨jSet kvs key x, h1, jLookup_jSet_ne kvs key k2 x hkey⟩

theorem stepPro_skip_of_missing (kvs : List (String × Json))
    (h : jLookup kvs "Performing Rights Organization" = none ∨
      ∃ es, jLookup kvs "Performing Rights Organization" = some (.obj es) ∧
        jLookup es "Extracted Value" = none) :
    stepPro (.obj kvs) = .ok (.obj kvs) := by
  rcases h with h | ⟨es, h1, h2⟩
  · rw [stepPro]
    simp only [pyIn, jHasKey_none_of_jLookup_none kvs _ h]
  · rw [stepPro]
    simp only [pyIn, jHasKey_of_jLookup kvs _ _ h1, pyGetItem, h1,
      jHasKey_none_of_jLookup_none es _ h2]

theorem finalPro_keyError (kvs : List (String × Json)) :
    (jLookup kvs "Performing Rights Organization" = none →
      finalPro (.obj kvs) =
        .error (.keyError "Performing Rights Organization")) ∧
    (∀ es, jLookup kvs "Performing Rights Organization" = some (.obj es) →
      jLookup es "Extracted Value" = none →
      finalPro (.obj kvs) = .error (.keyError "Extracted Value")) := by
  constructor
  · intro h
    rw [finalPro]
    simp only [pyGetItem, h]
  · intro es h1 h2
    rw [finalPro]
    simp only [pyGetItem, h1, h2]

/-- C9: when the earlier choice-of-law and currency steps return normally,
`update_extracted_value` raises `KeyError` instead of returning the document
whenever the top-level `Performing Rights Organization` key is missing, or
is a mapping without an `Extracted Value` key — the final check on line 76 of
`post_processing.py` is not guarded by the key-presence test. -/
theorem update_extracted_value_keyerror_spec (kvs : List (String × Json))
    (d₁ d₂ : Json)
    (h₁ : stepMapping "Choice of Law" choice_of_law_mapping (.obj kvs) =
      .ok d₁)
    (h₂ : stepMapping "Currency" currency_mapping d₁ = .ok d₂) :
    (jLookup kvs "Performing Rights Organization" = none →
      update_extracted_value (.obj kvs) =
        .error (.keyError "Performing Rights Organization")) ∧
    (∀ es, jLookup kvs "Performing Rights Organization" = some (.obj es) →
      jLookup es "Extracted Value" = none →
      update_extracted_value (.obj kvs) =
        .error (.keyError "Extracted Value")) := by
  obtain ⟨kvs1, hd₁, hl1⟩ :=
    stepMapping_ok_lookup_ne "Choice of Law" choice_of_law_mapping kvs d₁
      "Performing Rights Organization" (by decide) h₁
  subst hd₁
  obtain ⟨kvs2, hd₂, hl2⟩ :=
    stepMapping_ok_lookup_ne "Currency" currency_mapping kvs1 d₂
      "Performing Rights Organization" (by decide) h₂
  subst hd₂
  have hl : jLookup kvs2 "Performing Rights Organization" =
      jLookup kvs "Performing Rights Organization" := by rw [hl2, hl1]
  constructor
  · intro h
    rw [update_extracted_value]
    simp only [h₁, h₂, stepPro_skip_of_missing kvs2 (Or.inl (hl.trans h))]
    exact (finalPro_keyError kvs2).1 (hl.trans h)
  · intro es h1 h2
    rw [update_extracted_value]
    simp only [h₁, h₂,
      stepPro_skip_of_missing kvs2 (Or.inr ⟨es, hl.trans h1, h2⟩)]
    exact (finalPro_keyError kvs2).2 es (hl.trans h1) h2

/-- Witness for C9: a document with no `Performing Rights Organization` key
makes the function raise `KeyError` rather than return. -/
theorem update_extracted_value_keyerror_spec_witness :
    update_extracted_value
        (.obj [("Territory", .obj [("Extracted Value", .str "USA")])]) =
      .error (.keyError "Performing Rights Organization") :=
  (update_extracted_value_keyerror_spec
      [("Territory", .obj [("Extracted Value", .str "USA")])]
      (.obj [("Territory", .obj [("Extracted Value", .str "USA")])])
      (.obj [("Territory", .obj [("Extracted Value", .str "USA")])])
      (by decide) (by decide)).1 (by decide)

/-! ### Lemmas about template population. -/

theorem populate_template_obj (kvs : List (String × Json)) (src : Json) :
    populate_template (.obj kvs) src = .obj (populateEntries kvs src) := by
  rw [populate_template]

theorem populate_template_str (s : String) (src : Json) :
    populate_template (.str s) src = .str s := by
  rw [populate_template]
  intro kvs h
  exact Json.noConfusion h

theorem populateEntries_lookup (src : Json) (k : String) :
    ∀ (kvs : List (String × Json)),
      jLookup (populateEntries kvs src) k =
        (jLookup kvs k).map (fun v =>
          if v = Json.str "" && srcHasKey src k then jGetD src k
          else populate_template v src) := by
  intro kvs
  induction kvs with
  | nil => rfl
  | cons hd tl ih =>
      obtain ⟨k₀, v₀⟩ := hd
      rw [populateEntries]
      by_cases hk : k₀ = k
      · subst hk
        simp [jLookup]
      · simp [jLookup, hk, ih]

theorem populateEntries_hasKey (src : Json) (k : String) :
    ∀ (kvs : List (String × Json)),
      jHasKey (populateEntries kvs src) k = jHasKey kvs k := by
  intro kvs
  induction kvs with
  | nil => rfl
  | cons hd tl ih =>
      obtain ⟨k₀, v₀⟩ := hd
      rw [populateEntries]
      simp [jHasKey, ih]

/-- Whether a JSON value is an object. -/
def jIsObj : Json → Bool
  | .obj _ => true
  | _ => false

theorem jLookup_obj_of_all_obj (k : String) :
    ∀ (kvs : List (String × Json)),
      kvs.all (fun p => jIsObj p.2) = true →
      jLookup kvs k = none ∨ ∃ tf, jLookup kvs k = some (.obj tf) := by
  intro kvs
  induction kvs with
  | nil => intro _; left; rfl
  | cons hd tl ih =>
      intro hall
      obtain ⟨k₀, v₀⟩ := hd
      simp only [List.all_cons, Bool.and_eq_true] at hall
      by_cases hk : k₀ = k
      · right
        cases v₀ with
        | obj tf => exact ⟨tf, by simp [jLookup, hk]⟩
        | str s => simp [jIsObj] at hall
        | num n => simp [jIsObj] at hall
        | arr xs => simp [jIsObj] at hall
      · rcases ih hall.2 with h | ⟨tf, h⟩
        · left; simp [jLookup, hk, h]
        · right; exact ⟨tf, by simp [jLookup, hk, h]⟩

/-- C4 (amended): over the static Contract Template, for every flat document:
an empty-string template leaf whose key exists in the flat document is
populated with the full field object (a deep copy — the value itself under
value semantics); an empty-string leaf whose key is absent stays the empty
string; the one non-empty default, `[Prior] Pass-Through Income Included in
Concord` with default `"No"`, keeps `"No"` whatever the flat document holds;
and the output has exactly the template's tables and leaf keys, so flat keys
not named by the template are dropped. -/
theorem populate_template_population_spec (es : List (String × Json)) :
    (∀ tname k v, jLookup2 concord_template tname k = some (.str "") →
      jLookup es k = some v →
      jLookup2 (populate_template concord_template (.obj es)) tname k =
        some v) ∧
    (∀ tname k, jLookup2 concord_template tname k = some (.str "") →
      jLookup es k = none →
      jLookup2 (populate_template concord_template (.obj es)) tname k =
        some (.str "")) ∧
    (jLookup2 (populate_template concord_template (.obj es))
        "General Information"
        "[Prior] Pass-Through Income Included in Concord" =
      some (.str "No")) ∧
    (∀ tname, srcHasKey (populate_template concord_template (.obj es)) tname =
      srcHasKey concord_template tname) ∧
    (∀ tname k,
      (jLookup2 (populate_template concord_template (.obj es)) tname k).isSome
        = (jLookup2 concord_template tname k).isSome) := by
  have hout : populate_template concord_template (.obj es) =
      .obj (populateEntries concord_entries (.obj es)) := by
    rw [show concord_template = Json.obj concord_entries from rfl,
      populate_template_obj]
  have hdecomp : ∀ tname k d, jLookup2 concord_template tname k = some d →
      ∃ tf, jLookup concord_entries tname = some (.obj tf) ∧
        jLookup tf k = some d := by
    intro tname k d h
    rw [show concord_template = Json.obj concord_entries from rfl] at h
    rw [jLookup2] at h
    cases htl : jLookup concord_entries tname with
    | none => rw [htl] at h; simp at h
    | some tv =>
        rw [htl] at h
        cases tv with
        | obj gk => exact ⟨gk, rfl, h⟩
        | str s => simp at h
        | num n => simp at h
        | arr xs => simp at h
  have hcompute : ∀ tname tf k,
      jLookup concord_entries tname = some (.obj tf) →
      jLookup2 (populate_template concord_template (.obj es)) tname k =
        (jLookup tf k).map (fun v =>
          if v = Json.str "" && srcHasKey (.obj es) k then jGetD (.obj es) k
          else populate_template v (.obj es)) := by
    intro tname tf k htl
    rw [hout, jLookup2, populateEntries_lookup, htl]
    simp only [Option.map_some']
    rw [if_neg (by simp)]
    rw [populate_template_obj]
    show jLookup (populateEntries tf (Json.obj es)) k = _
    rw [populateEntries_lookup]
  refine ⟨?_, ?_, ?_, ?_, ?_⟩
  · intro tname k v h1 h2
    obtain ⟨tf, htl, htf⟩ := hdecomp tname k _ h1
    rw [hcompute tname tf k htl, htf]
    simp only [Option.map_some']
    rw [if_pos (by
      simp [srcHasKey, jHasKey_of_jLookup es k v h2])]
    simp [jGetD, h2]
  · intro tname k h1 h2
    obtain ⟨tf, htl, htf⟩ := hdecomp tname k _ h1
    rw [hcompute tname tf k htl, htf]
    simp only [Option.map_some']
    rw [if_neg (by
      simp [srcHasKey, jHasKey_none_of_jLookup_none es k h2])]
    rw [populate_template_str]
  · have htl : jLookup concord_entries "General Information" =
        some (.obj concordGeneralInformation) := by decide
    have hgik : jLookup concordGeneralInformation
        "[Prior] Pass-Through Income Included in Concord" =
        some (.str "No") := by decide
    rw [hcompute _ _ _ htl, hgik]
    simp only [Option.map_some']
    rw [if_neg (by simp)]
    rw [populate_template_str]
  · intro tname
    rw [hout]
    rw [show concord_template = Json.obj concord_entries from rfl]
    simp [srcHasKey, populateEntries_hasKey]
  · intro tname k
    have hall : concord_entries.all (fun p => jIsObj p.2) = true := by decide
    rcases jLookup_obj_of_all_obj tname concord_entries hall with h | ⟨tf, h⟩
    · rw [hout, jLookup2, populateEntries_lookup, h]
      rw [show concord_template = Json.obj concord_entries from rfl,
        jLookup2, h]
      simp
    · rw [hcompute tname tf k h]
      rw [show concord_template = Json.obj concord_entries from rfl,
        jLookup2, h]
      simp [Option.isSome_map]

/-- Witness for the amended C4 at a concrete flat document holding a
`Territory` field: the `General Information` table of the populated output
carries the full field object, and an absent leaf stays empty. -/
theorem populate_template_population_spec_witness :
    (jLookup2 concord_template "General Information" "Territory" =
      some (.str "")) ∧
    (jLookup [("Territory", .obj [("Extracted Value", .str "USA"),
        ("Position", .num 1)])] "Territory" =
      some (.obj [("Extracted Value", .str "USA"), ("Position", .num 1)])) ∧
    (jLookup2 (populate_template concord_template
        (.obj [("Territory", .obj [("Extracted Value", .str "USA"),
          ("Position", .num 1)])])) "General Information" "Territory" =
      some (.obj [("Extracted Value", .str "USA"), ("Position", .num 1)])) :=
  ⟨by decide, by decide,
   (populate_template_population_spec
       [("Territory", .obj [("Extracted Value", .str "USA"),
         ("Position", .num 1)])]).1
     "General Information" "Territory"
     (.obj [("Extracted Value", .str "USA"), ("Position", .num 1)])
     (by decide) (by decide)⟩

/-! ### Lemmas about the position invariant. -/

theorem invJson_obj (kvs : List (String × Json)) :
    invJson (.obj kvs) = (fieldOK kvs && invEntries kvs) := by
  rw [invJson]

theorem invEntries_cons (k : String) (v : Json) (rest : List (String × Json)) :
    invEntries ((k, v) :: rest) = (invJson v && invEntries rest) := by
  rw [invEntries]

theorem invEntries_lookup (k : String) (v : Json) :
    ∀ (kvs : List (String × Json)), invEntries kvs = true →
      jLookup kvs k = some v → invJson v = true := by
  intro kvs
  induction kvs with
  | nil => intro _ h; simp [jLookup] at h
  | cons hd tl ih =>
      obtain ⟨k₀, v₀⟩ := hd
      intro hinv hl
      rw [invEntries_cons, Bool.and_eq_true] at hinv
      by_cases hk : k₀ = k
      · simp [jLookup, hk] at hl
        rw [← hl]
        exact hinv.1
      · simp only [jLookup, hk, if_false] at hl
        exact ih hinv.2 hl

theorem invEntries_jSet (k : String) (v : Json) :
    ∀ (kvs : List (String × Json)), invEntries kvs = true →
      invJson v = true → invEntries (jSet kvs k v) = true := by
  intro kvs
  induction kvs with
  | nil =>
      intro _ hv
      rw [jSet]
      rw [invEntries_cons]
      simp [hv, invEntries]
  | cons hd tl ih =>
      obtain ⟨k₀, v₀⟩ := hd
      intro hinv hv
      rw [invEntries_cons, Bool.and_eq_true] at hinv
      rw [jSet]
      by_cases hk : k₀ = k
      · rw [if_pos hk, invEntries_cons]
        simp [hv, hinv.2]
      · rw [if_neg hk, invEntries_cons]
        simp [hinv.1, ih hinv.2 hv]

theorem fieldOK_jSet_other (kvs : List (String × Json)) (k : String) (v : Json)
    (h1 : k ≠ "Extracted Value") (h2 : k ≠ "Position") :
    fieldOK (jSet kvs k v) = fieldOK kvs := by
  rw [fieldOK, fieldOK, jHasKey_jSet, jHasKey_jSet,
    jLookup_jSet_ne kvs k "Extracted Value" v (Ne.symm h1)]
  have e1 : (k == "Extracted Value") = false := by
    simp [h1]
  have e2 : (k == "Position") = false := by
    simp [h2]
  rw [e1, e2, Bool.or_false, Bool.or_false]

theorem fieldOK_set_EV (kvs : List (String × Json)) (nv ov : Json)
    (hok : fieldOK kvs = true)
    (hl : jLookup kvs "Extracted Value" = some ov)
    (hiff : (nv = Json.str "N/A") ↔ (ov = Json.str "N/A")) :
    fieldOK (jSet kvs "Extracted Value" nv) = true := by
  have hHas := jHasKey_of_jLookup kvs "Extracted Value" ov hl
  rw [fieldOK, hHas] at hok
  simp only [if_true] at hok
  rw [fieldOK, jHasKey_jSet, hHas, Bool.true_or]
  simp only [if_true]
  rw [jLookup_jSet_self]
  have hPos : jHasKey (jSet kvs "Extracted Value" nv) "Position" =
      jHasKey kvs "Position" := by
    rw [jHasKey_jSet]
    simp
  rw [hPos]
  rw [hl] at hok
  have : (some nv == some (Json.str "N/A")) =
      (some ov == some (Json.str "N/A")) := by
    by_cases hnv : nv = Json.str "N/A"
    · rw [hnv]
      have hov : ov = Json.str "N/A" := hiff.mp hnv
      rw [hov]
    · have hov : ¬ ov = Json.str "N/A" := fun hh => hnv (hiff.mpr hh)
      simp [hnv, hov]
  rw [this]
  exact hok

theorem invJson_str (s : String) : invJson (.str s) = true := by
  rw [invJson]
  · intro kvs h; exact Json.noConfusion h
  · intro xs h; exact Json.noConfusion h

theorem invJson_num (n : Int) : invJson (.num n) = true := by
  rw [invJson]
  · intro kvs h; exact Json.noConfusion h
  · intro xs h; exact Json.noConfusion h

theorem stepMapping_inv (key : String) (m : List (String × String))
    (j j' : Json) (hk1 : key ≠ "Extracted Value") (hk2 : key ≠ "Position")
    (hm1 : m.lookup "N/A" = none)
    (hm2 : ∀ s w, m.lookup s = some w → w ≠ "N/A")
    (hinv : invJson j = true)
    (h : stepMapping key m j = .ok j') : invJson j' = true := by
  rw [stepMapping] at h
  cases j with
  | num n => simp [pyIn] at h
  | str s =>
      cases hsc : strContains s key with
      | false =>
          simp only [pyIn, hsc] at h
          rw [← Except.ok.inj h]
          exact hinv
      | true =>
          simp only [pyIn, hsc, pyGetItem] at h
          exact Except.noConfusion h
  | arr xs =>
      cases hsc : xs.contains (Json.str key) with
      | false =>
          simp only [pyIn, hsc] at h
          rw [← Except.ok.inj h]
          exact hinv
      | true =>
          simp only [pyIn, hsc, pyGetItem] at h
          exact Except.noConfusion h
  | obj kvs =>
      cases hk : jHasKey kvs key with
      | false =>
          simp only [pyIn, hk] at h
          rw [← Except.ok.inj h]
          exact hinv
      | true =>
          simp only [pyIn, hk] at h
          cases hlk : jLookup kvs key with
          | none => simp [pyGetItem, hlk] at h
          | some v =>
              simp only [pyGetItem, hlk] at h
              rw [invJson_obj, Bool.and_eq_true] at hinv
              obtain ⟨hfok, hie⟩ := hinv
              have hfv := invEntries_lookup key v kvs hie hlk
              cases v with
              | obj fkvs =>
                  rw [invJson_obj, Bool.and_eq_true] at hfv
                  obtain ⟨hfok2, hie2⟩ := hfv
                  cases hev : jHasKey fkvs "Extracted Value" with
                  | false =>
                      simp only [pyIn, hev] at h
                      rw [← Except.ok.inj h, invJson_obj]
                      simp [hfok, hie]
                  | true =>
                      simp only [pyIn, hev] at h
                      cases hlev : jLookup fkvs "Extracted Value" with
                      | none => simp [pyGetItem, hlev] at h
                      | some ov =>
                          simp only [pyGetItem, hlev] at h
                          cases ov with
                          | str s =>
                              cases hms : m.lookup s with
                              | none =>
                                  simp only [pyMapGetD, hms] at h
                                  rw [← Except.ok.inj h, invJson_obj,
                                    Bool.and_eq_true]
                                  constructor
                                  · rw [fieldOK_jSet_other kvs key _ hk1 hk2]
                                    exact hfok
                                  · refine invEntries_jSet key _ kvs hie ?_
                                    rw [invJson_obj, Bool.and_eq_true]
                                    constructor
                                    · exact fieldOK_set_EV fkvs _ _ hfok2 hlev
                                        Iff.rfl
                                    · exact invEntries_jSet _ _ fkvs hie2
                                        (invJson_str s)
                              | some w =>
                                  simp only [pyMapGetD, hms] at h
                                  rw [← Except.ok.inj h, invJson_obj,
                                    Bool.and_eq_true]
                                  constructor
                                  · rw [fieldOK_jSet_other kvs key _ hk1 hk2]
                                    exact hfok
                                  · refine invEntries_jSet key _ kvs hie ?_
                                    rw [invJson_obj, Bool.and_eq_true]
                                    constructor
                                    · refine fieldOK_set_EV fkvs _ _ hfok2 hlev
                                        ?_
                                      constructor
                                      · intro hw
                                        exfalso
                                        exact hm2 s w hms
                                          (by
                                            have := Json.str.inj hw
                                            exact this)
                                      · intro hs
                                        exfalso
                                        have hsna : s = "N/A" :=
                                          Json.str.inj hs
                                        rw [hsna] at hms
                                        rw [hm1] at hms
                                        exact Option.noConfusion hms
                                    · exact invEntries_jSet _ _ fkvs hie2
                                        (invJson_str w)
                          | num n =>
                              simp only [pyMapGetD] at h
                              rw [← Except.ok.inj h, invJson_obj,
                                Bool.and_eq_true]
                              constructor
                              · rw [fieldOK_jSet_other kvs key _ hk1 hk2]
                                exact hfok
                              · refine invEntries_jSet key _ kvs hie ?_
                                rw [invJson_obj, Bool.and_eq_true]
                                constructor
                                · exact fieldOK_set_EV fkvs _ _ hfok2 hlev
                                    Iff.rfl
                                · exact invEntries_jSet _ _ fkvs hie2
                                    (invJson_num n)
                          | arr ys => simp [pyMapGetD] at h
                          | obj o => simp [pyMapGetD] at h
              | str s =>
                  cases hsc : strContains s "Extracted Value" with
                  | false =>
                      simp only [pyIn, hsc] at h
                      rw [← Except.ok.inj h, invJson_obj]
                      simp [hfok, hie]
                  | true =>
                      simp only [pyIn, hsc, pyGetItem] at h
                      exact Except.noConfusion h
              | num n => simp [pyIn] at h
              | arr ys =>
                  cases hsc : ys.contains (Json.str "Extracted Value") with
                  | false =>
                      simp only [pyIn, hsc] at h
                      rw [← Except.ok.inj h, invJson_obj]
                      simp [hfok, hie]
                  | true =>
                      simp only [pyIn, hsc, pyGetItem] at h
                      exact Except.noConfusion h

theorem stepPro_inv (j j' : Json) (hinv : invJson j = true)
    (hna : ¬ proEVisNA j) (h : stepPro j = .ok j') : invJson j' = true := by
  rw [stepPro] at h
  cases j with
  | num n => simp [pyIn] at h
  | str s =>
      cases hsc : strContains s "Performing Rights Organization" with
      | false =>
          simp only [pyIn, hsc] at h
          rw [← Except.ok.inj h]
          exact hinv
      | true =>
          simp only [pyIn, hsc, pyGetItem] at h
          exact Except.noConfusion h
  | arr xs =>
      cases hsc : xs.contains (Json.str "Performing Rights Organization") with
      | false =>
          simp only [pyIn, hsc] at h
          rw [← Except.ok.inj h]
          exact hinv
      | true =>
          simp only [pyIn, hsc, pyGetItem] at h
          exact Except.noConfusion h
  | obj kvs =>
      cases hk : jHasKey kvs "Performing Rights Organization" with
      | false =>
          simp only [pyIn, hk] at h
          rw [← Except.ok.inj h]
          exact hinv
      | true =>
          simp only [pyIn, hk] at h
          cases hlk : jLookup kvs "Performing Rights Organization" with
          | none => simp [pyGetItem, hlk] at h
          | some v =>
              simp only [pyGetItem, hlk] at h
              rw [invJson_obj, Bool.and_eq_true] at hinv
              obtain ⟨hfok, hie⟩ := hinv
              have hfv := invEntries_lookup _ v kvs hie hlk
              cases v with
              | obj fkvs =>
                  rw [invJson_obj, Bool.and_eq_true] at hfv
                  obtain ⟨hfok2, hie2⟩ := hfv
                  cases hev : jHasKey fkvs "Extracted Value" with
                  | false =>
                      simp only [pyIn, hev] at h
                      rw [← Except.ok.inj h, invJson_obj]
                      simp [hfok, hie]
                  | true =>
                      simp only [pyIn, hev] at h
                      cases hlev : jLookup fkvs "Extracted Value" with
                      | none => simp [pyGetItem, hlev] at h
                      | some ov =>
                          simp only [pyGetItem, hlev] at h
                          have hovna : ov ≠ Json.str "N/A" := by
                            intro hh
                            exact hna ⟨kvs, fkvs, rfl, hlk, hh ▸ hlev⟩
                          have hcoerced : ∀ c : Json,
                              c = Json.str "Other" ∨
                              (∃ s2, c = Json.str s2 ∧ ov = Json.str s2) →
                              invJson (.obj (jSet kvs
                                "Performing Rights Organization"
                                (.obj (jSet fkvs "Extracted Value" c)))) =
                                true := by
                            intro c hc
                            rw [invJson_obj, Bool.and_eq_true]
                            constructor
                            · rw [fieldOK_jSet_other kvs _ _ (by decide)
                                (by decide)]
                              exact hfok
                            · refine invEntries_jSet _ _ kvs hie ?_
                              rw [invJson_obj, Bool.and_eq_true]
                              have hcna : c ≠ Json.str "N/A" := by
                                rcases hc with hc | ⟨s2, hc, hc2⟩
                                · rw [hc]; simp
                                · rw [hc]; rw [hc2] at hovna; exact hovna
                              have hcs : ∃ s2, c = Json.str s2 := by
                                rcases hc with hc | ⟨s2, hc, _⟩
                                · exact ⟨"Other", hc⟩
                                · exact ⟨s2, hc⟩
                              constructor
                              · refine fieldOK_set_EV fkvs _ _ hfok2 hlev ?_
                                constructor
                                · intro hh; exact absurd hh hcna
                                · intro hh; exact absurd hh hovna
                              · obtain ⟨s2, hs2⟩ := hcs
                                rw [hs2]
                                exact invEntries_jSet _ _ fkvs hie2
                                  (invJson_str s2)
                          cases ov with
                          | str s =>
                              cases hcon : pro_accepted_list.contains s with
                              | true =>
                                  simp only [hcon, if_true] at h
                                  rw [← Except.ok.inj h]
                                  exact hcoerced _ (Or.inr ⟨s, rfl, rfl⟩)
                              | false =>
                                  simp only [hcon, Bool.false_eq_true,
                                    if_false] at h
                                  rw [← Except.ok.inj h]
                                  exact hcoerced _ (Or.inl rfl)
                          | num n =>
                              simp only [] at h
                              rw [← Except.ok.inj h]
                              exact hcoerced _ (Or.inl rfl)
                          | arr ys =>
                              simp only [] at h
                              rw [← Except.ok.inj h]
                              exact hcoerced _ (Or.inl rfl)
                          | obj o =>
                              simp only [] at h
                              rw [← Except.ok.inj h]
                              exact hcoerced _ (Or.inl rfl)
              | str s =>
                  cases hsc : strContains s "Extracted Value" with
                  | false =>
                      simp only [pyIn, hsc] at h
                      rw [← Except.ok.inj h, invJson_obj]
                      simp [hfok, hie]
                  | true =>
                      simp only [pyIn, hsc, pyGetItem] at h
                      exact Except.noConfusion h
              | num n => simp [pyIn] at h
              | arr ys =>
                  cases hsc : ys.contains (Json.str "Extracted Value") with
                  | false =>
                      simp only [pyIn, hsc] at h
                      rw [← Except.ok.inj h, invJson_obj]
                      simp [hfok, hie]
                  | true =>
                      simp only [pyIn, hsc, pyGetItem] at h
                      exact Except.noConfusion h

theorem finalPro_inv (j j' : Json) (hinv : invJson j = true)
    (h : finalPro j = .ok j') : invJson j' = true := by
  rw [finalPro] at h
  cases j with
  | num n => simp [pyGetItem] at h
  | str s => simp [pyGetItem] at h
  | arr xs => simp [pyGetItem] at h
  | obj kvs =>
      cases hlk : jLookup kvs "Performing Rights Organization" with
      | none => simp [pyGetItem, hlk] at h
      | some fv =>
          simp only [pyGetItem, hlk] at h
          rw [invJson_obj, Bool.and_eq_true] at hinv
          obtain ⟨hfok, hie⟩ := hinv
          have hfv := invEntries_lookup _ fv kvs hie hlk
          cases fv with
          | obj fkvs =>
              cases hlev : jLookup fkvs "Extracted Value" with
              | none => simp [hlev] at h
              | some ev =>
                  simp only [hlev] at h
                  by_cases hev : ev = Json.str "Other"
                  · rw [if_pos hev] at h
                    rw [← Except.ok.inj h, invJson_obj, Bool.and_eq_true]
                    constructor
                    · rw [fieldOK_jSet_other kvs _ _ (by decide) (by decide)]
                      exact hfok
                    · exact invEntries_jSet _ _ kvs hie hfv
                  · rw [if_neg hev] at h
                    rw [← Except.ok.inj h, invJson_obj]
                    simp [hfok, hie]
          | str s2 => simp at h
          | num n2 => simp at h
          | arr ys => simp at h

theorem invJson_arr (xs : List Json) : invJson (.arr xs) = invList xs := by
  rw [invJson]

theorem populate_template_num (n : Int) (src : Json) :
    populate_template (.num n) src = .num n := by
  rw [populate_template]
  intro kvs h
  exact Json.noConfusion h

theorem populate_template_arr (xs : List Json) (src : Json) :
    populate_template (.arr xs) src = .arr xs := by
  rw [populate_template]
  intro kvs h
  exact Json.noConfusion h

theorem noEVJson_obj (kvs : List (String × Json)) :
    noEVJson (.obj kvs) = (!jHasKey kvs "Extracted Value" &&
      noEVEntries kvs) := by
  rw [noEVJson]

theorem noEVEntries_cons (k : String) (v : Json)
    (rest : List (String × Json)) :
    noEVEntries ((k, v) :: rest) = (noEVJson v && noEVEntries rest) := by
  rw [noEVEntries]

theorem invJson_jGetD (src : Json) (k : String) (hsrc : invJson src = true)
    (hk : srcHasKey src k = true) : invJson (jGetD src k) = true := by
  cases src with
  | obj kvs =>
      obtain ⟨v, hv⟩ := jLookup_isSome_of_jHasKey kvs k (by
        rw [srcHasKey] at hk
        exact hk)
      rw [jGetD, hv]
      rw [invJson_obj, Bool.and_eq_true] at hsrc
      exact invEntries_lookup k v kvs hsrc.2 hv
  | str s => simp [srcHasKey] at hk
  | num n => simp [srcHasKey] at hk
  | arr xs => simp [srcHasKey] at hk

mutual

theorem populate_inv : ∀ (t src : Json), invJson t = true →
    noEVJson t = true → invJson src = true →
    invJson (populate_template t src) = true
  | .obj kvs, src => fun hit hno hsrc => by
      rw [populate_template_obj, invJson_obj, Bool.and_eq_true]
      rw [invJson_obj, Bool.and_eq_true] at hit
      rw [noEVJson_obj, Bool.and_eq_true] at hno
      constructor
      · rw [fieldOK, populateEntries_hasKey]
        have : jHasKey kvs "Extracted Value" = false := by
          have := hno.1
          cases hev : jHasKey kvs "Extracted Value" with
          | false => rfl
          | true => rw [hev] at this; exact Bool.noConfusion this
        rw [this]
        simp
      · exact populateEntries_inv kvs src hit.2 hno.2 hsrc
  | .str s, src => fun hit _ _ => by rw [populate_template_str]; exact hit
  | .num n, src => fun hit _ _ => by rw [populate_template_num]; exact hit
  | .arr xs, src => fun hit _ _ => by rw [populate_template_arr]; exact hit

theorem populateEntries_inv : ∀ (kvs : List (String × Json)) (src : Json),
    invEntries kvs = true → noEVEntries kvs = true → invJson src = true →
    invEntries (populateEntries kvs src) = true
  | [], src => fun _ _ _ => by rw [populateEntries]; rw [invEntries]
  | (k, v) :: rest, src => fun hinv hno hsrc => by
      rw [populateEntries, invEntries_cons, Bool.and_eq_true]
      rw [invEntries_cons, Bool.and_eq_true] at hinv
      rw [noEVEntries_cons, Bool.and_eq_true] at hno
      constructor
      · by_cases hguard : (v = Json.str "" && srcHasKey src k) = true
        · rw [if_pos hguard]
          rw [Bool.and_eq_true] at hguard
          exact invJson_jGetD src k hsrc hguard.2
        · rw [if_neg hguard]
          exact populate_inv v src hinv.1 hno.1 hsrc
      · exact populateEntries_inv rest src hinv.2 hno.2 hsrc

end

theorem lookup_all_ne_NA :
    ∀ (m : List (String × String)),
      m.all (fun p => p.2 ≠ "N/A") = true →
      ∀ s w, m.lookup s = some w → w ≠ "N/A" := by
  intro m
  induction m with
  | nil => intro _ s w h; simp at h
  | cons hd tl ih =>
      intro hall s w h
      obtain ⟨k₀, w₀⟩ := hd
      simp only [List.all_cons, Bool.and_eq_true] at hall
      by_cases hk : s = k₀
      · subst hk
        simp only [List.lookup, beq_self_eq_true] at h
        have hw := Option.some.inj h
        rw [← hw]
        simpa using hall.1
      · have hne : (s == k₀) = false := beq_eq_false_iff_ne.mpr hk
        simp only [List.lookup, hne] at h
        exact ih hall.2 s w h

/-- C3 (amended): for every flat extraction document satisfying the position
invariant whose `Performing Rights Organization` extracted value is not the
positionless sentinel `"N/A"`, the document produced by
`update_extracted_value` followed by `populate_template` over the Contract
Template still satisfies the invariant at every Extracted Field. -/
theorem normalize_template_preserves_position_invariant
    (kvs : List (String × Json)) (d' : Json)
    (hinv : invJson (.obj kvs) = true)
    (hna : ¬ proEVisNA (.obj kvs))
    (hok : update_extracted_value (.obj kvs) = .ok d') :
    invJson (populate_template concord_template d') = true := by
  rw [update_extracted_value] at hok
  cases h1 : stepMapping "Choice of Law" choice_of_law_mapping (.obj kvs) with
  | error e => rw [h1] at hok; exact Except.noConfusion hok
  | ok j₁ =>
      rw [h1] at hok
      replace hok : (match stepMapping "Currency" currency_mapping j₁ with
          | Except.error e => Except.error e
          | Except.ok j₂ =>
            match stepPro j₂ with
            | Except.error e => Except.error e
            | Except.ok j₃ => finalPro j₃) = Except.ok d' := hok
      obtain ⟨kvs1, hj1, hl1⟩ := stepMapping_ok_lookup_ne _ _ kvs j₁
        "Performing Rights Organization" (by decide) h1
      subst hj1
      have hinv1 := stepMapping_inv _ _ _ _ (by decide) (by decide)
        (by decide) (lookup_all_ne_NA choice_of_law_mapping (by decide))
        hinv h1
      cases h2 : stepMapping "Currency" currency_mapping (.obj kvs1) with
      | error e => rw [h2] at hok; exact Except.noConfusion hok
      | ok j₂ =>
          rw [h2] at hok
          replace hok : (match stepPro j₂ with
              | Except.error e => Except.error e
              | Except.ok j₃ => finalPro j₃) = Except.ok d' := hok
          obtain ⟨kvs2, hj2, hl2⟩ := stepMapping_ok_lookup_ne _ _ kvs1 j₂
            "Performing Rights Organization" (by decide) h2
          subst hj2
          have hinv2 := stepMapping_inv _ _ _ _ (by decide) (by decide)
            (by decide) (lookup_all_ne_NA currency_mapping (by decide))
            hinv1 h2
          have hna2 : ¬ proEVisNA (.obj kvs2) := by
            intro hcontra
            obtain ⟨kvsx, es, heq, hpro, hev⟩ := hcontra
            have hx : kvsx = kvs2 := (Json.obj.inj heq).symm
            subst hx
            exact hna ⟨kvs, es, rfl, by rw [← hl1, ← hl2]; exact hpro, hev⟩
          cases h3 : stepPro (.obj kvs2) with
          | error e => rw [h3] at hok; exact Except.noConfusion hok
          | ok j₃ =>
              rw [h3] at hok
              replace hok : finalPro j₃ = Except.ok d' := hok
              have hinv3 := stepPro_inv _ _ hinv2 hna2 h3
              have hinvd := finalPro_inv _ _ hinv3 hok
              exact populate_inv concord_template d' (by decide) (by decide)
                hinvd

/-- Witness for the amended C3: a document whose PRO field reads `"Kobalt"`
with a position satisfies the hypotheses, and the normalized, templated
output satisfies the invariant. -/
theorem normalize_template_preserves_position_invariant_witness :
    invJson (.obj [("Performing Rights Organization",
        .obj [("Extracted Value", .str "Kobalt"),
          ("Position", .num 1)])]) = true ∧
    update_extracted_value (.obj [("Performing Rights Organization",
        .obj [("Extracted Value", .str "Kobalt"), ("Position", .num 1)])]) =
      .ok (.obj [("Performing Rights Organization",
          .obj [("Extracted Value", .str "Other"), ("Position", .num 1)]),
        ("Other Performing Rights Organization",
          .obj [("Extracted Value", .str "Other"), ("Position", .num 1)])]) ∧
    invJson (populate_template concord_template
      (.obj [("Performing Rights Organization",
          .obj [("Extracted Value", .str "Other"), ("Position", .num 1)]),
        ("Other Performing Rights Organization",
          .obj [("Extracted Value", .str "Other"),
            ("Position", .num 1)])])) = true :=
  ⟨by decide, by decide,
   normalize_template_preserves_position_invariant
     [("Performing Rights Organization",
        .obj [("Extracted Value", .str "Kobalt"), ("Position", .num 1)])]
     (.obj [("Performing Rights Organization",
          .obj [("Extracted Value", .str "Other"), ("Position", .num 1)]),
        ("Other Performing Rights Organization",
          .obj [("Extracted Value", .str "Other"), ("Position", .num 1)])])
     (by decide)
     (by
       intro hcontra
       obtain ⟨kvsx, es, heq, hpro, hev⟩ := hcontra
       have hx : kvsx =
           [("Performing Rights Organization",
              Json.obj [("Extracted Value", Json.str "Kobalt"),
                ("Position", Json.num 1)])] := (Json.obj.inj heq).symm
       subst hx
       have hcalc : jLookup
           [("Performing Rights Organization",
              Json.obj [("Extracted Value", Json.str "Kobalt"),
                ("Position", Json.num 1)])]
           "Performing Rights Organization" =
           some (.obj [("Extracted Value", Json.str "Kobalt"),
             ("Position", Json.num 1)]) := by decide
       rw [hcalc] at hpro
       have hes : [("Extracted Value", Json.str "Kobalt"),
           ("Position", Json.num 1)] = es :=
         Json.obj.inj (Option.some.inj hpro)
       rw [← hes] at hev
       exact absurd hev (by decide))
     (by decide)⟩

/-! ### Lemmas about the per-file pipeline gating. -/

theorem https_url_ne_empty (a b c : String) :
    ("https://" ++ a ++ ".s3." ++ b ++ ".amazonaws.com/" ++ c) ≠ "" := by
  intro h
  have hl := congrArg String.length h
  simp [String.length_append] at hl
  exact absurd hl.1.1.1.1.1 (by decide)

theorem optStrTruthy_none : optStrTruthy none = false := rfl

theorem optStrTruthy_some (s : String) :
    optStrTruthy (some s) = decide (s ≠ "") := rfl

theorem process_pipeline_failed (cfg : AppConfig)
    (filename output_dir : String) (ext : ExtOutcomes)
    (hfail : (∃ e, ext.parsed = .error e) ∨
      (∃ r e, ext.parsed = .ok r ∧ update_extracted_value r = .error e)) :
    (process_single_pdf cfg filename output_dir ext).1.contract_id = none ∧
    (process_single_pdf cfg filename output_dir ext).1.mongodb_id = none ∧
    (process_single_pdf cfg filename output_dir ext).2.1 = [] ∧
    (process_single_pdf cfg filename output_dir ext).2.2 = [] := by
  rcases hfail with ⟨e, hp⟩ | ⟨r, e, hp, hu⟩
  · refine ⟨?_, ?_, ?_, ?_⟩ <;> simp [process_single_pdf, hp]
  · refine ⟨?_, ?_, ?_, ?_⟩ <;> simp [process_single_pdf, hp, hu]

theorem process_gate_off (cfg : AppConfig)
    (filename output_dir : String) (ext : ExtOutcomes)
    (hg : mongoIsNotNone cfg.mongo_collection = false ∨ cfg.s3_client = false ∨
      optStrTruthy cfg.s3_bucket = false ∨ ext.s3_upload_ok = false) :
    (process_single_pdf cfg filename output_dir ext).1.contract_id = none ∧
    (process_single_pdf cfg filename output_dir ext).1.mongodb_id = none ∧
    (process_single_pdf cfg filename output_dir ext).2.1 = [] ∧
    (process_single_pdf cfg filename output_dir ext).2.2 = [] := by
  cases hp : ext.parsed with
  | error e =>
      exact process_pipeline_failed cfg filename output_dir ext
        (.inl ⟨e, hp⟩)
  | ok response =>
      cases hu : update_extracted_value response with
      | error e =>
          exact process_pipeline_failed cfg filename output_dir ext
            (.inr ⟨response, e, hp, hu⟩)
      | ok normalized =>
          have hu2 := https_url_ne_empty (cfg.s3_bucket.getD "")
            cfg.aws_region ("contracts/" ++ filename ++ ".pdf")
          cases ha1 : optStrTruthy cfg.airtable_api_key <;>
            cases ha2 : optStrTruthy cfg.airtable_base_id <;>
            cases hcb : cfg.s3_client <;>
            cases hbt : optStrTruthy cfg.s3_bucket <;>
            cases hupb : ext.s3_upload_ok <;>
            cases hmb : mongoIsNotNone cfg.mongo_collection <;>
            first
              | (exfalso; simp [hmb, hcb, hbt, hupb] at hg; done)
              | (refine ⟨?_, ?_, ?_, ?_⟩ <;>
                  simp [process_single_pdf, hp, hu, ha1, ha2, hcb, hbt,
                    hupb, hmb, upload_to_s3, optStrTruthy_none, hu2])

theorem process_gate_on (cfg : AppConfig) (filename output_dir : String)
    (ext : ExtOutcomes) (response normalized : Json)
    (hp : ext.parsed = .ok response)
    (hu : update_extracted_value response = .ok normalized)
    (hmb : mongoIsNotNone cfg.mongo_collection = true) (hcb : cfg.s3_client = true)
    (hbt : optStrTruthy cfg.s3_bucket = true)
    (hupb : ext.s3_upload_ok = true) :
    (process_single_pdf cfg filename output_dir ext).1.contract_id =
      some ext.uuid := by
  have hu2 := https_url_ne_empty (cfg.s3_bucket.getD "")
    cfg.aws_region ("contracts/" ++ filename ++ ".pdf")
  cases ha1 : optStrTruthy cfg.airtable_api_key <;>
    cases ha2 : optStrTruthy cfg.airtable_base_id <;>
    simp [process_single_pdf, hp, hu, ha1, ha2, hcb, hbt, hupb, hmb,
      upload_to_s3, optStrTruthy_some, hu2]

theorem process_success_fields (cfg : AppConfig)
    (filename output_dir : String) (ext : ExtOutcomes)
    (response normalized : Json)
    (hp : ext.parsed = .ok response)
    (hu : update_extracted_value response = .ok normalized) :
    (process_single_pdf cfg filename output_dir ext).1.status = "success" ∧
    (process_single_pdf cfg filename output_dir ext).1.output_path =
      some (osPathJoin output_dir (filename ++ ".json")) := by
  have hu2 := https_url_ne_empty (cfg.s3_bucket.getD "")
    cfg.aws_region ("contracts/" ++ filename ++ ".pdf")
  refine ⟨?_, ?_⟩ <;>
    (cases ha1 : optStrTruthy cfg.airtable_api_key <;>
      cases ha2 : optStrTruthy cfg.airtable_base_id <;>
      cases hcb : cfg.s3_client <;>
      cases hbt : optStrTruthy cfg.s3_bucket <;>
      cases hupb : ext.s3_upload_ok <;>
      cases hmb : mongoIsNotNone cfg.mongo_collection <;>
      simp [process_single_pdf, hp, hu, ha1, ha2, hcb, hbt, hupb, hmb,
        upload_to_s3, optStrTruthy_none, optStrTruthy_some, hu2])

/-- The gating law of the per-file pipeline over the faithful three-state
`mongo_collection`: a contract id is assigned, a utilities CRM record
created, or a database insert attempted only when the code's gate
`mongo_collection is not None` holds and the object-storage upload returned
a URL (and then the result carries the freshly generated id); when the gate
is off or the upload fails, the result carries no contract id and no
database id, while a run whose model response parses and normalizes still
reports status `success` with a written output file.  Note the gate is NOT
"the database is configured": it also passes in the `leftoverStr` state
(see `mongo_leftover_gate_passes`). -/
theorem persistence_gating_spec (cfg : AppConfig)
    (filename output_dir : String) (ext : ExtOutcomes) :
    (((process_single_pdf cfg filename output_dir ext).1.contract_id ≠ none ∨
      (process_single_pdf cfg filename output_dir ext).1.mongodb_id ≠ none ∨
      (process_single_pdf cfg filename output_dir ext).2.1 ≠ [] ∨
      (process_single_pdf cfg filename output_dir ext).2.2 ≠ []) →
      (mongoIsNotNone cfg.mongo_collection = true ∧ cfg.s3_client = true ∧
       optStrTruthy cfg.s3_bucket = true ∧ ext.s3_upload_ok = true ∧
       (process_single_pdf cfg filename output_dir ext).1.contract_id =
         some ext.uuid)) ∧
    ((mongoIsNotNone cfg.mongo_collection = false ∨ cfg.s3_client = false ∨
      optStrTruthy cfg.s3_bucket = false ∨ ext.s3_upload_ok = false) →
      ((process_single_pdf cfg filename output_dir ext).1.contract_id =
         none ∧
       (process_single_pdf cfg filename output_dir ext).1.mongodb_id =
         none ∧
       (process_single_pdf cfg filename output_dir ext).2.1 = [] ∧
       (process_single_pdf cfg filename output_dir ext).2.2 = [])) ∧
    (∀ j j', ext.parsed = .ok j → update_extracted_value j = .ok j' →
      ((process_single_pdf cfg filename output_dir ext).1.status =
        "success" ∧
       (process_single_pdf cfg filename output_dir ext).1.output_path =
         some (osPathJoin output_dir (filename ++ ".json")))) := by
  refine ⟨?_, ?_, ?_⟩
  · intro h
    have hcontra : ∀ (hg : mongoIsNotNone cfg.mongo_collection = false ∨
        cfg.s3_client = false ∨ optStrTruthy cfg.s3_bucket = false ∨
        ext.s3_upload_ok = false), False := by
      intro hg
      obtain ⟨h1, h2, h3, h4⟩ := process_gate_off cfg filename output_dir
        ext hg
      rcases h with h | h | h | h
      · exact h h1
      · exact h h2
      · exact h h3
      · exact h h4
    have hm : mongoIsNotNone cfg.mongo_collection = true := by
      cases hx : mongoIsNotNone cfg.mongo_collection with
      | true => rfl
      | false => exact absurd (Or.inl hx) (fun hg => hcontra hg)
    have hc : cfg.s3_client = true := by
      cases hx : cfg.s3_client with
      | true => rfl
      | false => exact absurd (Or.inr (Or.inl hx)) (fun hg => hcontra hg)
    have hb : optStrTruthy cfg.s3_bucket = true := by
      cases hx : optStrTruthy cfg.s3_bucket with
      | true => rfl
      | false =>
          exact absurd (Or.inr (Or.inr (Or.inl hx)))
            (fun hg => hcontra hg)
    have hup : ext.s3_upload_ok = true := by
      cases hx : ext.s3_upload_ok with
      | true => rfl
      | false =>
          exact absurd (Or.inr (Or.inr (Or.inr hx)))
            (fun hg => hcontra hg)
    refine ⟨hm, hc, hb, hup, ?_⟩
    cases hp : ext.parsed with
    | error e =>
        exfalso
        obtain ⟨h1, h2, h3, h4⟩ := process_pipeline_failed cfg filename
          output_dir ext (.inl ⟨e, hp⟩)
        rcases h with h | h | h | h
        · exact h h1
        · exact h h2
        · exact h h3
        · exact h h4
    | ok response =>
        cases hu : update_extracted_value response with
        | error e =>
            exfalso
            obtain ⟨h1, h2, h3, h4⟩ := process_pipeline_failed cfg filename
              output_dir ext (.inr ⟨response, e, hp, hu⟩)
            rcases h with h | h | h | h
            · exact h h1
            · exact h h2
            · exact h h3
            · exact h h4
        | ok normalized =>
            exact process_gate_on cfg filename output_dir ext response
              normalized hp hu hm hc hb hup
  · exact process_gate_off cfg filename output_dir ext
  · intro j j' hj hj2
    exact process_success_fields cfg filename output_dir ext j j' hj hj2

/-- The gating law at concrete runs: with every integration configured and
a successful run, the result carries the generated contract id and reports
success; the same run with `mongo_collection = None` carries no contract id
and no database id while still reporting success. -/
theorem persistence_gating_spec_witness :
    ((process_single_pdf cfgFull "contract" "outputs/" extFull).1.contract_id
       = some extFull.uuid) ∧
    ((process_single_pdf { cfgFull with mongo_collection := MongoState.noneVal }
        "contract" "outputs/" extFull).1.contract_id = none ∧
     (process_single_pdf { cfgFull with mongo_collection := MongoState.noneVal }
        "contract" "outputs/" extFull).1.mongodb_id = none) ∧
    ((process_single_pdf cfgFull "contract" "outputs/" extFull).1.status =
      "success") :=
  ⟨((persistence_gating_spec cfgFull "contract" "outputs/" extFull).1
      (by decide)).2.2.2.2,
   ⟨((persistence_gating_spec { cfgFull with mongo_collection := MongoState.noneVal }
        "contract" "outputs/" extFull).2.1 (Or.inl rfl)).1,
    ((persistence_gating_spec { cfgFull with mongo_collection := MongoState.noneVal }
        "contract" "outputs/" extFull).2.1 (Or.inl rfl)).2.1⟩,
   ((persistence_gating_spec cfgFull "contract" "outputs/" extFull).2.2
      (.obj [("Performing Rights Organization",
        .obj [("Extracted Value", .str "BMI"), ("Position", .num 1)])])
      (.obj [("Performing Rights Organization",
        .obj [("Extracted Value", .str "BMI"), ("Position", .num 1)])])
      (by decide) (by decide)).1⟩

/-- **C7.** The claim (and the spec) gate contract-id generation, the
utilities-record create and the database insert on a *configured* document
database, but the code gates on `mongo_collection is not None` (`app.py`
line 502), and line 102 initializes `mongo_collection` to the raw
`COLLECTION_NAME` string, so the gate also passes when that variable is set
while `DATABASE_URI` is not — no database client was ever constructed or
probed.  In such a run with the CRM and object storage configured and a
successful upload, a fresh contract id is generated and the utilities CRM
record is created, while the insert dies on the leftover string
(`AttributeError` inside `save_to_mongodb`, caught) so `mongodb_id` stays
`None` and no document reaches any database — persistence artifacts appear
in a run where the document database is unconfigured, refuting the claimed
"only when the document database is configured" and the spec's "degrades
gracefully to disabled" for incomplete variables. -/
theorem mongo_leftover_gate_passes :
    (process_single_pdf
        { cfgFull with mongo_collection := .leftoverStr "contracts" }
        "contract" "outputs/" extFull).1.contract_id =
      some "11111111-2222-4333-8444-555555555555" ∧
    (process_single_pdf
        { cfgFull with mongo_collection := .leftoverStr "contracts" }
        "contract" "outputs/" extFull).2.1 =
      [{ table := "Amendment Changes",
         fields := [("Link",
             .str "https://review.example.com/11111111-2222-4333-8444-555555555555"),
           ("Amendment Changes", .str ""),
           ("Contract",
             .str "Writer - 01 January 2024 - Admin Agreement")] }] ∧
    (process_single_pdf
        { cfgFull with mongo_collection := .leftoverStr "contracts" }
        "contract" "outputs/" extFull).1.mongodb_id = none ∧
    (process_single_pdf
        { cfgFull with mongo_collection := .leftoverStr "contracts" }
        "contract" "outputs/" extFull).2.2 = ([] : List MongoDoc) ∧
    (process_single_pdf
        { cfgFull with mongo_collection := .leftoverStr "contracts" }
        "contract" "outputs/" extFull).1.status = "success" :=
  ⟨by decide, by decide, by decide, by decide, by decide⟩

/-! ### Lemmas about the identity-tagged model. -/

mutual

theorem pdeepcopy_fresh : ∀ (v : PVal) (n : Nat),
    n ≤ (pdeepcopy v n).2 ∧
    (∀ i ∈ pvIds (pdeepcopy v n).1, n ≤ i ∧ i < (pdeepcopy v n).2)
  | .pstr s, n => by
      constructor
      · exact le_refl n
      · intro i hi
        rw [pdeepcopy] at hi
        simp [pvIds] at hi
  | .pnum m, n => by
      constructor
      · exact le_refl n
      · intro i hi
        rw [pdeepcopy] at hi
        simp [pvIds] at hi
  | .parr id0 items, n => by
      have hl := pdeepcopyList_fresh items (n + 1)
      rw [pdeepcopy]
      constructor
      · omega
      · intro i hi
        rw [pvIds] at hi
        rcases List.mem_cons.mp hi with hi | hi
        · omega
        · have := hl.2 i hi
          omega
  | .pdict id0 es, n => by
      have hl := pdeepcopyEntries_fresh es (n + 1)
      rw [pdeepcopy]
      constructor
      · omega
      · intro i hi
        rw [pvIds] at hi
        rcases List.mem_cons.mp hi with hi | hi
        · omega
        · have := hl.2 i hi
          omega

theorem pdeepcopyList_fresh : ∀ (vs : List PVal) (n : Nat),
    n ≤ (pdeepcopyList vs n).2 ∧
    (∀ i ∈ pvIdsList (pdeepcopyList vs n).1,
      n ≤ i ∧ i < (pdeepcopyList vs n).2)
  | [], n => by
      constructor
      · exact le_refl n
      · intro i hi
        rw [pdeepcopyList] at hi
        simp [pvIdsList] at hi
  | v :: vs, n => by
      have h1 := pdeepcopy_fresh v n
      have h2 := pdeepcopyList_fresh vs (pdeepcopy v n).2
      rw [pdeepcopyList]
      constructor
      · omega
      · intro i hi
        rw [pvIdsList] at hi
        rcases List.mem_append.mp hi with hi | hi
        · have := h1.2 i hi
          omega
        · have := h2.2 i hi
          omega

theorem pdeepcopyEntries_fresh : ∀ (es : List (String × PVal)) (n : Nat),
    n ≤ (pdeepcopyEntries es n).2 ∧
    (∀ i ∈ pvIdsEntries (pdeepcopyEntries es n).1,
      n ≤ i ∧ i < (pdeepcopyEntries es n).2)
  | [], n => by
      constructor
      · exact le_refl n
      · intro i hi
        rw [pdeepcopyEntries] at hi
        simp [pvIdsEntries] at hi
  | (k, v) :: es, n => by
      have h1 := pdeepcopy_fresh v n
      have h2 := pdeepcopyEntries_fresh es (pdeepcopy v n).2
      rw [pdeepcopyEntries]
      constructor
      · omega
      · intro i hi
        rw [pvIdsEntries] at hi
        rcases List.mem_append.mp hi with hi | hi
        · have := h1.2 i hi
          omega
        · have := h2.2 i hi
          omega

end

mutual

theorem populateTagged_fresh : ∀ (t source : PVal) (n : Nat),
    n ≤ (populateTagged t source n).2 ∧
    (∀ i ∈ pvIds (populateTagged t source n).1,
      i ∈ pvIds t ∨ (n ≤ i ∧ i < (populateTagged t source n).2))
  | .pstr s, source, n => by
      constructor
      · exact le_refl n
      · intro i hi
        exact Or.inl hi
  | .pnum m, source, n => by
      constructor
      · exact le_refl n
      · intro i hi
        exact Or.inl hi
  | .parr id0 items, source, n => by
      constructor
      · exact le_refl n
      · intro i hi
        exact Or.inl hi
  | .pdict id0 kvs, source, n => by
      have hl := populateTaggedEntries_fresh kvs source (n + 1)
      rw [populateTagged]
      constructor
      · omega
      · intro i hi
        rw [pvIds] at hi
        rcases List.mem_cons.mp hi with hi | hi
        · right
          omega
        · rcases hl.2 i hi with h | h
          · exact Or.inl (by rw [pvIds]; exact List.mem_cons_of_mem _ h)
          · right
            omega

theorem populateTaggedEntries_fresh :
    ∀ (kvs : List (String × PVal)) (source : PVal) (n : Nat),
    n ≤ (populateTaggedEntries kvs source n).2 ∧
    (∀ i ∈ pvIdsEntries (populateTaggedEntries kvs source n).1,
      i ∈ pvIdsEntries kvs ∨
        (n ≤ i ∧ i < (populateTaggedEntries kvs source n).2))
  | [], source, n => by
      constructor
      · exact le_refl n
      · intro i hi
        rw [populateTaggedEntries] at hi
        simp [pvIdsEntries] at hi
  | (k, v) :: rest, source, n => by
      have hu : populateTaggedEntries ((k, v) :: rest) source n =
          (if (match v with | .pstr s => s = "" | _ => false) &&
              pvHasKey source k
           then
             ((k, (pdeepcopy (pvGet source k) n).1) ::
                (populateTaggedEntries rest source
                  (pdeepcopy (pvGet source k) n).2).1,
              (populateTaggedEntries rest source
                (pdeepcopy (pvGet source k) n).2).2)
           else
             ((k, (populateTagged v source n).1) ::
                (populateTaggedEntries rest source
                  (populateTagged v source n).2).1,
              (populateTaggedEntries rest source
                (populateTagged v source n).2).2)) := rfl
      rw [hu]
      clear hu
      by_cases hg :
          ((match v with | .pstr s => s = "" | _ => false) &&
            pvHasKey source k) = true
      · rw [if_pos hg]
        have h1 := pdeepcopy_fresh (pvGet source k) n
        have h2 := populateTaggedEntries_fresh rest source
          (pdeepcopy (pvGet source k) n).2
        constructor
        · omega
        · intro i hi
          rw [pvIdsEntries] at hi
          rcases List.mem_append.mp hi with hi | hi
          · have := h1.2 i hi
            right
            omega
          · rcases h2.2 i hi with h | h
            · exact Or.inl (by
                rw [pvIdsEntries]
                exact List.mem_append_right _ h)
            · right
              omega
      · rw [if_neg hg]
        have h1 := populateTagged_fresh v source n
        have h2 := populateTaggedEntries_fresh rest source
          (populateTagged v source n).2
        constructor
        · omega
        · intro i hi
          rw [pvIdsEntries] at hi
          rcases List.mem_append.mp hi with hi | hi
          · rcases h1.2 i hi with h | h
            · exact Or.inl (by
                rw [pvIdsEntries]
                exact List.mem_append_left _ h)
            · right
              omega
          · rcases h2.2 i hi with h | h
            · exact Or.inl (by
                rw [pvIdsEntries]
                exact List.mem_append_right _ h)
            · right
              omega

end

theorem jHasKey_pvEraseEntries (es : List (String × PVal)) (k : String) :
    jHasKey (pvEraseEntries es) k = es.any (fun kv => kv.1 == k) := by
  induction es with
  | nil => rfl
  | cons kv rest ih =>
      cases kv with
      | mk k₀ v₀ => simp [pvEraseEntries, jHasKey, List.any_cons, ih]

theorem pvHasKey_erase (source : PVal) (k : String) :
    pvHasKey source k = srcHasKey (pvErase source) k := by
  cases source with
  | pstr s => rfl
  | pnum m => rfl
  | parr i items => rfl
  | pdict i es =>
      rw [pvHasKey, pvErase, srcHasKey, jHasKey_pvEraseEntries]

theorem pvGetEntries_erase (es : List (String × PVal)) (k : String) :
    pvErase (pvGetEntries es k) =
      (jLookup (pvEraseEntries es) k).getD (.str "") := by
  induction es with
  | nil => rfl
  | cons kv rest ih =>
      cases kv with
      | mk k₀ v₀ =>
          by_cases h : k₀ = k
          · simp [pvGetEntries, pvEraseEntries, jLookup, h]
          · simp [pvGetEntries, pvEraseEntries, jLookup, h, ih]

theorem pvGet_erase (source : PVal) (k : String) :
    pvErase (pvGet source k) = jGetD (pvErase source) k := by
  cases source with
  | pstr s => rfl
  | pnum m => rfl
  | parr i items => rfl
  | pdict i es =>
      rw [pvGet, pvErase, jGetD, pvGetEntries_erase]

theorem guard_erase (v : PVal) :
    (match v with | PVal.pstr s => decide (s = "") | _ => false) =
      decide (pvErase v = Json.str "") := by
  cases v <;> simp [pvErase]

mutual

theorem pdeepcopy_erase : ∀ (v : PVal) (n : Nat),
    pvErase (pdeepcopy v n).1 = pvErase v
  | .pstr s, n => rfl
  | .pnum m, n => rfl
  | .parr id0 items, n => by
      rw [pdeepcopy]
      show Json.arr (pvEraseList (pdeepcopyList items (n + 1)).1) = _
      rw [pdeepcopyList_erase items (n + 1)]
      rfl
  | .pdict id0 es, n => by
      rw [pdeepcopy]
      show Json.obj (pvEraseEntries (pdeepcopyEntries es (n + 1)).1) = _
      rw [pdeepcopyEntries_erase es (n + 1)]
      rfl

theorem pdeepcopyList_erase : ∀ (vs : List PVal) (n : Nat),
    pvEraseList (pdeepcopyList vs n).1 = pvEraseList vs
  | [], n => rfl
  | v :: vs, n => by
      rw [pdeepcopyList]
      show pvErase (pdeepcopy v n).1 ::
        pvEraseList (pdeepcopyList vs (pdeepcopy v n).2).1 = _
      rw [pdeepcopy_erase v n, pdeepcopyList_erase vs (pdeepcopy v n).2]
      rfl

theorem pdeepcopyEntries_erase : ∀ (es : List (String × PVal)) (n : Nat),
    pvEraseEntries (pdeepcopyEntries es n).1 = pvEraseEntries es
  | [], n => rfl
  | (k, v) :: es, n => by
      rw [pdeepcopyEntries]
      show (k, pvErase (pdeepcopy v n).1) ::
        pvEraseEntries (pdeepcopyEntries es (pdeepcopy v n).2).1 = _
      rw [pdeepcopy_erase v n, pdeepcopyEntries_erase es (pdeepcopy v n).2]
      rfl

end

mutual

theorem populateTagged_erase : ∀ (t source : PVal) (n : Nat),
    pvErase (populateTagged t source n).1 =
      populate_template (pvErase t) (pvErase source)
  | .pstr s, source, n => rfl
  | .pnum m, source, n => rfl
  | .parr id0 items, source, n => rfl
  | .pdict id0 kvs, source, n => by
      rw [populateTagged]
      show Json.obj
          (pvEraseEntries (populateTaggedEntries kvs source (n + 1)).1) = _
      rw [populateTaggedEntries_erase kvs source (n + 1)]
      rfl

theorem populateTaggedEntries_erase :
    ∀ (kvs : List (String × PVal)) (source : PVal) (n : Nat),
    pvEraseEntries (populateTaggedEntries kvs source n).1 =
      populateEntries (pvEraseEntries kvs) (pvErase source)
  | [], source, n => rfl
  | (k, v) :: rest, source, n => by
      have hu : populateTaggedEntries ((k, v) :: rest) source n =
          (if (match v with | .pstr s => s = "" | _ => false) &&
              pvHasKey source k
           then
             ((k, (pdeepcopy (pvGet source k) n).1) ::
                (populateTaggedEntries rest source
                  (pdeepcopy (pvGet source k) n).2).1,
              (populateTaggedEntries rest source
                (pdeepcopy (pvGet source k) n).2).2)
           else
             ((k, (populateTagged v source n).1) ::
                (populateTaggedEntries rest source
                  (populateTagged v source n).2).1,
              (populateTaggedEntries rest source
                (populateTagged v source n).2).2)) := rfl
      rw [hu]
      clear hu
      have hpe : populateEntries (pvEraseEntries ((k, v) :: rest))
            (pvErase source) =
          (k, if pvErase v = Json.str "" &&
                srcHasKey (pvErase source) k
              then jGetD (pvErase source) k
              else populate_template (pvErase v) (pvErase source)) ::
            populateEntries (pvEraseEntries rest) (pvErase source) := rfl
      rw [hpe]
      clear hpe
      by_cases hg :
          ((match v with | .pstr s => s = "" | _ => false) &&
            pvHasKey source k) = true
      · rw [if_pos hg]
        have hg2 : (pvErase v = Json.str "" &&
            srcHasKey (pvErase source) k) = true := by
          rw [← guard_erase, ← pvHasKey_erase]
          exact hg
        rw [if_pos hg2]
        show (k, pvErase (pdeepcopy (pvGet source k) n).1) ::
            pvEraseEntries (populateTaggedEntries rest source
              (pdeepcopy (pvGet source k) n).2).1 = _
        rw [pdeepcopy_erase (pvGet source k) n, pvGet_erase,
          populateTaggedEntries_erase rest source
            (pdeepcopy (pvGet source k) n).2]
      · rw [if_neg hg]
        have hg2 : ¬ ((pvErase v = Json.str "" &&
            srcHasKey (pvErase source) k) = true) := by
          rw [← guard_erase, ← pvHasKey_erase]
          exact hg
        rw [if_neg hg2]
        show (k, pvErase (populateTagged v source n).1) ::
            pvEraseEntries (populateTaggedEntries rest source
              (populateTagged v source n).2).1 = _
        rw [populateTagged_erase v source n,
          populateTaggedEntries_erase rest source
            (populateTagged v source n).2]

end

/-- **C10.** `populate_template` mutates neither argument (the tagged model
computes the result purely, threading only the allocation counter, and its
erasure agrees with the value-level `populate_template`, so template and
source keep their values), and the result shares no mutable substructure
with the source document: provided the source's object ids lie below the
allocation counter and the template aliases nothing in the source, every id
reachable from the result is absent from the source — populated leaves are
deep copies allocated at fresh ids. -/
theorem populate_template_no_source_sharing
    (t source : PVal) (n : Nat)
    (hsrc : ∀ i ∈ pvIds source, i < n)
    (hsep : ∀ i ∈ pvIds t, i ∉ pvIds source) :
    (∀ i ∈ pvIds (populateTagged t source n).1, i ∉ pvIds source) ∧
    pvErase (populateTagged t source n).1 =
      populate_template (pvErase t) (pvErase source) := by
  constructor
  · intro i hi hmem
    rcases (populateTagged_fresh t source n).2 i hi with h | h
    · exact hsep i h hmem
    · exact absurd (hsrc i hmem) (by omega)
  · exact populateTagged_erase t source n

/-- Witness for C10: a two-level template with a populated leaf against a
source holding an array, at counter 10. -/
theorem populate_template_no_source_sharing_witness :
    (∀ i ∈ pvIds (populateTagged
        (.pdict 0 [("a", .pstr ""), ("b", .pdict 1 [("c", .pstr "x")])])
        (.pdict 5 [("a", .parr 6 [.pnum 1])]) 10).1,
      i ∉ pvIds (PVal.pdict 5 [("a", .parr 6 [.pnum 1])])) ∧
    pvErase (populateTagged
        (.pdict 0 [("a", .pstr ""), ("b", .pdict 1 [("c", .pstr "x")])])
        (.pdict 5 [("a", .parr 6 [.pnum 1])]) 10).1 =
      populate_template
        (pvErase (.pdict 0 [("a", .pstr ""), ("b", .pdict 1 [("c", .pstr "x")])]))
        (pvErase (.pdict 5 [("a", .parr 6 [.pnum 1])])) :=
  populate_template_no_source_sharing
    (.pdict 0 [("a", .pstr ""), ("b", .pdict 1 [("c", .pstr "x")])])
    (.pdict 5 [("a", .parr 6 [.pnum 1])]) 10
    (by decide) (by decide)
